import Mathlib

/-!
# Verification of the santa-claude session-tracking core

This file is a shallow embedding, in Lean 4, of the core of the
`santa-claude` wrapper:

* the Session Window Manager (`src/session-tracker.ts`, class
  `SessionTracker`) together with the slice of the TTL cache it uses;
* the generic TTL cache (`src/cache.ts`, class `SimpleCache`);
* the Token Usage Monitor (`src/token-monitor.ts`, class `TokenMonitor`,
  in its latest revision: the one with the `sessionPromise` once-only
  guard and the `sessionLock` single-flight guard);
* the Terminal Status Injector (class `TokenLineProcessor`).

Modelling conventions:

* JavaScript timestamps (`Date.now()`, `Date#getTime()`) are `Int`
  milliseconds; a `Date` object held in a `SessionData` is represented by
  its timestamp.
* Token counts and deltas are `Int` (JS numbers produced by `parseInt`
  and by subtraction, which may be negative in general).
* The SQLite store is a list of rows; `sqlite` driver errors are not
  modelled (the store is deterministic), so read paths never hit the
  fail-open catch branches.
* Asynchronous completions (`.then` handlers) are modelled as separate
  state transitions; the synchronous part of each method is one pure
  function from state (plus inputs) to state, result, and the set of
  store operations it initiates.
-/

set_option maxHeartbeats 1000000

/-- The domain entity returned by the tracker (`SessionData` in
`src/session-tracker.ts`): `startTime`/`endTime` are `Date`s, modelled by
their millisecond timestamps. -/
structure SessionData where
  id : String
  startTime : Int
  endTime : Int
deriving DecidableEq

/-- A persisted row of the `sessions` table (`SessionRow` in
`src/types.ts`): `total_tokens` is nullable (`number | null`). -/
structure SessionRow where
  id : String
  start_time : Int
  end_time : Int
  total_tokens : Option Int
deriving DecidableEq

/-- One entry of `SimpleCache` (`src/cache.ts`): stored value, write
timestamp and per-entry TTL. -/
structure CacheEntry (α : Type) where
  value : α
  timestamp : Int
  ttl : Int
deriving DecidableEq

/-- Errors surfaced by the tracker: `ValidationError` (src/errors.ts),
plain `Error` (the id checks of the token-update methods throw bare
`Error`s), and a propagated uniqueness violation on insert. -/
inductive TrackerError where
  | validationError (msg : String)
  | genericError (msg : String)
  | uniqueConstraint
deriving DecidableEq

/-- The mutable state of one `SessionTracker` plus the slice of the shared
`statsCache` it reads and writes.  The JS `statsCache` is a single string-keyed
`Map`; the tracker touches the three distinct keys `active_session`,
`monthly_session_count` and `weekly_session_count`, modelled as three
independent optional entries (distinct `Map` keys never alias).  The
`active_session` value is `SessionData | null`, modelled as
`Option SessionData` (`none` is the cached JS `null`, "no active session");
absence of the entry is the outer `Option`. -/
structure TrackerState where
  store : List SessionRow
  activeCache : Option (CacheEntry (Option SessionData))
  monthlyCache : Option (CacheEntry Int)
  weeklyCache : Option (CacheEntry Int)
deriving DecidableEq

/-- `/^[a-zA-Z0-9-]+$/` on a single character. -/
def validSessionChar (c : Char) : Bool :=
  ('a' ≤ c && c ≤ 'z') || ('A' ≤ c && c ≤ 'Z') || ('0' ≤ c && c ≤ '9') || c = '-'

/-- The session-id validation shared by `createSession`,
`updateSessionTokens` and `incrementSessionTokens`: non-empty, at most 100
characters, and every character alphanumeric or dash. -/
def validSessionId (s : String) : Bool :=
  0 < s.length && s.length ≤ 100 && s.toList.all validSessionChar

/-- The SQL predicate `start_time <= now AND end_time > now`. -/
def activeAt (now : Int) (r : SessionRow) : Bool :=
  r.start_time ≤ now && now < r.end_time

/-- `ORDER BY start_time DESC LIMIT 1`: the row with the largest
`start_time` among the candidates (first encountered wins on ties, as some
row does in the unspecified SQLite tie order). -/
def pickLatest (rs : List SessionRow) : Option SessionRow :=
  rs.foldl
    (fun acc r =>
      match acc with
      | none => some r
      | some b => if b.start_time < r.start_time then some r else some b)
    none

/-- The store query of `getActiveSession`:
`SELECT * FROM sessions WHERE start_time <= ? AND end_time > ? ORDER BY start_time DESC LIMIT 1`. -/
def queryActive (store : List SessionRow) (now : Int) : Option SessionRow :=
  pickLatest (store.filter (activeAt now))

/-- `rowToSessionData` (src/session-tracker.ts). -/
def rowToSessionData (r : SessionRow) : SessionData :=
  ⟨r.id, r.start_time, r.end_time⟩

/-- The query-then-cache tail of `getActiveSession`: query the store,
cache the result (a `null` result included) under `active_session` for
10 s, return it.  The `Bool` is ghost instrumentation recording that a
store query was performed. -/
def queryAndCacheActive (s : TrackerState) (now : Int) :
    Option SessionData × TrackerState × Bool :=
  let result := (queryActive s.store now).map rowToSessionData
  (result, { s with activeCache := some ⟨result, now, 10000⟩ }, true)

/-- `SessionTracker.getActiveSession` (src/session-tracker.ts:125-159).
The cache read is `SimpleCache.get`: a missing entry or one with
`now > timestamp + ttl` (the latter is deleted) reads as `undefined`.  A
defined cached value that is a session still in its window is returned
without touching the store; a cached value that is expired **or is the
cached `null`** (`if (cached && ...)` — `null` is falsy) is deleted and
the store is queried again.  The third component records whether the
store was queried. -/
def getActiveSession (s : TrackerState) (now : Int) :
    Option SessionData × TrackerState × Bool :=
  match s.activeCache with
  | some e =>
    if now > e.timestamp + e.ttl then
      -- SimpleCache.get lazily deletes the expired entry and reports a miss
      queryAndCacheActive { s with activeCache := none } now
    else
      match e.value with
      | some sess =>
        if now < sess.endTime then (some sess, s, false)
        else queryAndCacheActive { s with activeCache := none } now
      | none => queryAndCacheActive { s with activeCache := none } now
  | none => queryAndCacheActive s now

/-- `SessionTracker.createSession` (src/session-tracker.ts:74-123).
`sessionLengthMs` is the value of `configManager.getSessionLengthMs()`.
An insert conflicts exactly when the candidate id is already a row id
(the `id` column is the primary key); the catch branch then re-queries
the active session and only rethrows when none is found.  On a successful
insert the row gets `total_tokens = 0` (the column default), the stale
monthly/weekly aggregate entries are invalidated and the new session is
seeded into the `active_session` cache entry. -/
def createSession (s : TrackerState) (now sessionLengthMs : Int) (sessionId : String) :
    Except TrackerError SessionData × TrackerState :=
  if sessionId.length = 0 || 100 < sessionId.length then
    (.error (.validationError "Invalid session ID"), s)
  else if !(sessionId.toList.all validSessionChar) then
    (.error (.validationError "Session ID contains invalid characters"), s)
  else
    let endTime := now + (sessionLengthMs - 60000)
    match getActiveSession s now with
    | (some active, s1, _) =>
      (.ok active, { s1 with activeCache := some ⟨some active, now, 10000⟩ })
    | (none, s1, _) =>
      if s1.store.any (fun r => r.id == sessionId) then
        match getActiveSession s1 now with
        | (some existing, s2, _) => (.ok existing, s2)
        | (none, s2, _) => (.error .uniqueConstraint, s2)
      else
        (.ok ⟨sessionId, now, endTime⟩,
          { store := s1.store ++ [⟨sessionId, now, endTime, some 0⟩]
            activeCache := some ⟨some ⟨sessionId, now, endTime⟩, now, 10000⟩
            monthlyCache := none
            weeklyCache := none })

/-- `Number.MAX_SAFE_INTEGER`. -/
def maxSafeInteger : Int := 9007199254740991

/-- `SessionTracker.incrementSessionTokens` (src/session-tracker.ts:421-439):
validates the id (bare `Error`) and `0 ≤ tokensToAdd ≤ Number.MAX_SAFE_INTEGER`
(`ValidationError`), then runs
`UPDATE sessions SET total_tokens = COALESCE(total_tokens, 0) + ? WHERE id = ?`. -/
def incrementSessionTokens (store : List SessionRow) (sessionId : String)
    (tokensToAdd : Int) : Except TrackerError (List SessionRow) :=
  if sessionId.length = 0 || 100 < sessionId.length then
    .error (.genericError "Invalid session ID")
  else if !(sessionId.toList.all validSessionChar) then
    .error (.genericError "Session ID contains invalid characters")
  else if tokensToAdd < 0 || maxSafeInteger < tokensToAdd then
    .error (.validationError "Invalid token count")
  else
    .ok (store.map fun r =>
      if r.id = sessionId then
        { r with total_tokens := some (r.total_tokens.getD 0 + tokensToAdd) }
      else r)

/-- A sequence of `incrementSessionTokens` calls against the same id,
applied left to right (stopping at the first thrown error, as a caller
that awaits each call would). -/
def applyIncrements (store : List SessionRow) (sessionId : String)
    (ds : List Int) : Except TrackerError (List SessionRow) :=
  ds.foldlM (fun st d => incrementSessionTokens st sessionId d) store

/-- The `(year, month, day)` argument triple handed to the JS `Date`
constructor when computing the billing-cycle start.  `month` is the raw
(possibly negative) constructor argument — `new Date(y, m - 1, d)` lets the
constructor normalise an out-of-range month — and `day` is a `ℚ` because a
JS caller may pass a non-integral renewal day, which the validation in
`getBillingCycleSessionCount` does not exclude. -/
structure DateParts where
  year : Int
  month : Int
  day : ℚ
deriving DecidableEq

/-- `SessionTracker.getBillingCycleSessionCount` (src/session-tracker.ts:235-263).
`toTime` abstracts `Date#getTime()` on a constructed local date (the claims
do not constrain the calendar conversion itself); `nowYear`/`nowMonth`/`nowDay`
are `now.getFullYear()`, `now.getMonth()`, `now.getDate()`.  Validation only
checks `renewalDay < 1 || renewalDay > 31`; integrality is not checked.
The result counts rows with `start_time >= cycleStartTimestamp`. -/
def getBillingCycleSessionCount (toTime : DateParts → Int)
    (nowYear nowMonth nowDay : Int) (store : List SessionRow)
    (renewalDay : ℚ) : Except TrackerError Nat :=
  if renewalDay < 1 || 31 < renewalDay then
    .error (.validationError "Invalid renewal day")
  else
    let cycleStart : DateParts :=
      if renewalDay ≤ (nowDay : ℚ) then ⟨nowYear, nowMonth, renewalDay⟩
      else ⟨nowYear, nowMonth - 1, renewalDay⟩
    .ok ((store.filter fun r => toTime cycleStart ≤ r.start_time).length)

/-! ## The generic TTL cache (`src/cache.ts`, class `SimpleCache`)

The cache is type-erased in JS: any value, including `undefined` and
`null`, may be stored.  `JsValue α` is the stored-value domain; the
`get` API reports a miss (or lazy expiry) as `undefined`, which collides
with a stored `undefined`. -/

/-- A JS value of payload type `α`, or `undefined`, or `null`. -/
inductive JsValue (α : Type) where
  | undefined
  | null
  | value (v : α)
deriving DecidableEq

/-- `SimpleCache`: a string-keyed map of entries plus the constructor
default TTL.  The map is an association list whose first binding for a key
is current. -/
structure SimpleCache (α : Type) where
  entries : List (String × CacheEntry (JsValue α))
  defaultTTL : Int
deriving DecidableEq

namespace SimpleCache

/-- `SimpleCache.get`: a missing entry reads as `undefined`; an entry with
`now > timestamp + ttl` is deleted and reads as `undefined`; otherwise the
stored value (which may itself be `undefined` or `null`) is returned. -/
def get (c : SimpleCache α) (key : String) (now : Int) :
    JsValue α × SimpleCache α :=
  match c.entries.find? (fun p => p.1 = key) with
  | none => (.undefined, c)
  | some p =>
    if p.2.timestamp + p.2.ttl < now then
      (.undefined, { c with entries := c.entries.filter fun q => q.1 ≠ key })
    else (p.2.value, c)

/-- `SimpleCache.set`: store the value with `Date.now()` and the given TTL
(the constructor default when unspecified). -/
def set (c : SimpleCache α) (key : String) (v : JsValue α)
    (ttl : Option Int) (now : Int) : SimpleCache α :=
  { c with
    entries := (key, ⟨v, now, ttl.getD c.defaultTTL⟩) ::
      c.entries.filter fun q => q.1 ≠ key }

/-- `SimpleCache.has`: `get(key) !== undefined` (with the lazy-expiry
side effect of `get`). -/
def has (c : SimpleCache α) (key : String) (now : Int) : Bool × SimpleCache α :=
  let (v, c1) := get c key now
  (!(v matches .undefined), c1)

/-- `SimpleCache.getOrCompute`: serve the cached value if `get` returns a
defined one, otherwise invoke `compute`, store and return its result.  The
final `Bool` is ghost instrumentation recording whether `compute` ran. -/
def getOrCompute (c : SimpleCache α) (key : String) (compute : Unit → JsValue α)
    (ttl : Option Int) (now : Int) : JsValue α × SimpleCache α × Bool :=
  let (cached, c1) := get c key now
  if !(cached matches .undefined) then (cached, c1, false)
  else
    let v := compute ()
    (v, set c1 key v ttl now, true)

end SimpleCache

/-! ## The Token Usage Monitor (`src/token-monitor.ts`, class `TokenMonitor`)

The embedding follows the latest revision of the class: the one with the
`sessionPromise` once-only guard around `createSession` and the
`sessionLock` boolean single-flight guard around `incrementSessionTokens`
(src/token-monitor.ts:175-258). -/

/-- JS `\s` (the regexes here never set the unicode flag, but `\s` is
unicode-aware regardless): space, `\t`, `\n`, `\r`, `\v`, `\f`, NBSP, the
Unicode space separators, line/paragraph separators, and the BOM. -/
def jsWhitespace (c : Char) : Bool :=
  c = ' ' || c = '\t' || c = '\n' || c = '\r' || c = '\x0b' || c = '\x0c' ||
  c = '\u00a0' || c = '\u1680' || ('\u2000' ≤ c && c ≤ '\u200a') ||
  c = '\u2028' || c = '\u2029' || c = '\u202f' || c = '\u205f' ||
  c = '\u3000' || c = '\ufeff'

/-- `parseInt` on a non-empty decimal digit string. -/
def digitsToNat (ds : List Char) : Nat :=
  ds.foldl (fun a c => 10 * a + (c.toNat - '0'.toNat)) 0

/-- Try the tail of the pattern `(\d+)\s+token` (+ mandatory `s` when
`requireS`, as in the monitor regex; + optional `s`
otherwise, as in the injector regex, which has an optional trailing s) anchored at the head
of `l`; on success return the parsed capture group.  Backtracking inside
`\d+`/`\s+` cannot rescue a failed maximal run (a shortened run is
followed by another digit resp. whitespace character), so greedy maximal
runs are exact. -/
def matchCountAt (requireS : Bool) (l : List Char) : Option Nat :=
  let ds := l.takeWhile Char.isDigit
  if ds.isEmpty then none
  else
    let r1 := l.dropWhile Char.isDigit
    let ws := r1.takeWhile jsWhitespace
    if ws.isEmpty then none
    else
      let r2 := r1.dropWhile jsWhitespace
      if r2.take 5 = ['t', 'o', 'k', 'e', 'n'] then
        if requireS then
          if (r2.drop 5).take 1 = ['s'] then some (digitsToNat ds) else none
        else some (digitsToNat ds)
      else none

/-- `data.match(/(\d+)\s+tokens/)` (resp. `tokens?`): leftmost match,
returning the parsed first capture group. -/
def findCount (requireS : Bool) : List Char → Option Nat
  | [] => none
  | c :: rest =>
    match matchCountAt requireS (c :: rest) with
    | some n => some n
    | none => findCount requireS rest

/-- The per-invocation fields of `TokenMonitor` that `processOutput` reads
and writes.  `hasSessionPromise` models `sessionPromise !== undefined`;
`actualSessionId` is set asynchronously when the stored promise resolves. -/
structure TokenMonitorState where
  lastTokenCount : Int
  sessionStarted : Bool
  actualSessionId : Option String
  instanceStartTokenCount : Int
  lastReportedTokens : Int
  sessionLock : Bool
  hasSessionPromise : Bool
deriving DecidableEq

/-- The store operations a single synchronous `processOutput` run initiates:
at most one `createSession(sessionId)` and at most one
`incrementSessionTokens(id, delta)`. -/
structure MonitorEffects where
  createSessionCall : Option String
  incrementCall : Option (String × Int)
deriving DecidableEq

/-- No store operation initiated. -/
def noEffects : MonitorEffects := ⟨none, none⟩

namespace TokenMonitor

/-- The session-start block of `processOutput`
(`if (!this.sessionStarted) ...`): on the first observed increase, decide
the baseline (`instanceStartTokenCount`) by the resume heuristic — prior
count exactly 0 and new count strictly above the fixed threshold 2000 —
and, guarded by the absence of a stored `sessionPromise`, initiate exactly
one `createSession(sessionId)` request. -/
def startPhase (s : TokenMonitorState) (sessionId : String)
    (currentTokens : Int) : TokenMonitorState × Option String :=
  if !s.sessionStarted then
    let isLikelyResume := s.lastTokenCount = 0 && 2000 < currentTokens
    let base := if isLikelyResume then currentTokens else s.lastTokenCount
    let s1 := { s with sessionStarted := true, instanceStartTokenCount := base }
    if !s.hasSessionPromise then
      ({ s1 with hasSessionPromise := true }, some sessionId)
    else (s1, none)
  else (s, none)

/-- The token-update block of `processOutput`
(`if (this.sessionTracker && this.actualSessionId && !this.sessionLock) ...`):
when a resolved session id is recorded and no update is in flight, compute
`tokensFromThisInstance = currentTokens - instanceStartTokenCount` and
`tokenDelta = tokensFromThisInstance - lastReportedTokens`; if the delta is
positive, take the single-flight lock, optimistically set
`lastReportedTokens`, and initiate
`incrementSessionTokens(actualSessionId, tokenDelta)` — against the
*recorded* id, with no fresh `getActiveSession` lookup. -/
def updatePhase (s1 : TokenMonitorState) (currentTokens : Int) :
    TokenMonitorState × Option (String × Int) :=
  match s1.actualSessionId, s1.sessionLock with
  | some sid, false =>
    let tokensFromThisInstance := currentTokens - s1.instanceStartTokenCount
    let tokenDelta := tokensFromThisInstance - s1.lastReportedTokens
    if 0 < tokenDelta then
      ({ s1 with
          sessionLock := true
          lastReportedTokens := tokensFromThisInstance },
        some (sid, tokenDelta))
    else (s1, none)
  | _, _ => (s1, none)

/-- `TokenMonitor.processOutput` (src/token-monitor.ts:175-258), synchronous
part.  `sessionId` is the id the wrapper asked this monitor to use.  The
`.then` handlers of the initiated operations are `resolveCreateSession` and
`completeIncrement` below. -/
def processOutput (s : TokenMonitorState) (sessionId : String)
    (data : List Char) : TokenMonitorState × MonitorEffects :=
  match findCount true data with
  | none => (s, noEffects)
  | some n =>
    let currentTokens : Int := n
    if s.lastTokenCount < currentTokens then
      let sp := startPhase s sessionId currentTokens
      let up := updatePhase sp.1 currentTokens
      ({ up.1 with lastTokenCount := currentTokens }, ⟨sp.2, up.2⟩)
    else (s, noEffects)

/-- The `.then` handler of the stored `createSession` promise: record the id
the tracker actually returned. -/
def resolveCreateSession (s : TokenMonitorState) (returnedId : String) :
    TokenMonitorState :=
  { s with actualSessionId := some returnedId }

/-- The `.then`/`.catch` handler of an `incrementSessionTokens` call:
release the single-flight lock. -/
def completeIncrement (s : TokenMonitorState) : TokenMonitorState :=
  { s with sessionLock := false }

end TokenMonitor

/-! ## The Terminal Status Injector (`src/cli.ts` companion file
`token-line-processor.ts`, class `TokenLineProcessor`) -/

/-- A character allowed inside an SGR parameter list: `[0-9;]`. -/
def isSgrParam (c : Char) : Bool := c.isDigit || c = ';'

/-- Parse one `\x1b\[[0-9;]*m` unit at the head of the list, returning the
consumed unit and the remainder. -/
def parseSgrUnit (l : List Char) : Option (List Char × List Char) :=
  match l with
  | c1 :: c2 :: rest =>
    if c1 = '\x1b' && c2 = '[' then
      match rest.dropWhile isSgrParam with
      | 'm' :: tail => some (c1 :: c2 :: (rest.takeWhile isSgrParam ++ ['m']), tail)
      | _ => none
    else none
  | _ => none

/-- Recursion worker for `eatAnsi`.  The fuel argument only bounds the
number of SGR units consumed; since each unit is at least three characters,
`l.length` units of fuel always suffice and the fuel-exhausted branch is
unreachable for the fuel `eatAnsi` supplies. -/
def eatAnsiGo : Nat → List Char → List Char × List Char
  | 0, l => ([], l)
  | fuel + 1, l =>
    match parseSgrUnit l with
    | some (u, r) =>
      let p := eatAnsiGo fuel r
      (u ++ p.1, p.2)
    | none => ([], l)

/-- The greedy `(?:\x1b\[[0-9;]*m)*` loop: consume a maximal run of SGR
units, returning the concatenated run and the remainder.  (Backtracking to
fewer units cannot help the continuation of the pattern in which this is
used, since the continuation starts with `\d`, which no unit head `\x1b`
satisfies.) -/
def eatAnsi (l : List Char) : List Char × List Char := eatAnsiGo l.length l

/-- Recursion worker for `stripAnsi`, fuelled like `eatAnsiGo` (each step
consumes at least one character, so `l.length` fuel always suffices). -/
def stripAnsiGo : Nat → List Char → List Char
  | 0, l => l
  | _ + 1, [] => []
  | fuel + 1, c :: rest =>
    match parseSgrUnit (c :: rest) with
    | some (_, r) => stripAnsiGo fuel r
    | none => c :: stripAnsiGo fuel rest

/-- Delete every SGR control sequence; what remains is the visible text.
Used to state visible-column facts about the injector rewriting. -/
def stripAnsi (l : List Char) : List Char := stripAnsiGo l.length l

/-- Try the structural pattern of the injector,
`(\s{50,})((?:\x1b\[[0-9;]*m)*)(\d+\s+tokens?)` anchored at the head of
`l`: a whitespace run of length at least 50 (maximal, which is exact for
the same backtracking reason as in `matchCountAt`), a maximal run of SGR
units, then digits, whitespace and `token` with greedy optional `s`.
Returns the three capture groups and the remainder of the input. -/
def matchStructuralAt (l : List Char) :
    Option (List Char × List Char × List Char × List Char) :=
  let sp := l.takeWhile jsWhitespace
  if sp.length < 50 then none
  else
    let r1 := l.dropWhile jsWhitespace
    let ansi := (eatAnsi r1).1
    let r2 := (eatAnsi r1).2
    let ds := r2.takeWhile Char.isDigit
    if ds.isEmpty then none
    else
      let r3 := r2.dropWhile Char.isDigit
      let ws2 := r3.takeWhile jsWhitespace
      if ws2.isEmpty then none
      else
        let r4 := r3.dropWhile jsWhitespace
        if r4.take 5 = ['t', 'o', 'k', 'e', 'n'] then
          match r4.drop 5 with
          | 's' :: tail =>
            some (sp, ansi, ds ++ ws2 ++ ['t', 'o', 'k', 'e', 'n', 's'], tail)
          | other => some (sp, ansi, ds ++ ws2 ++ ['t', 'o', 'k', 'e', 'n'], other)
        else none

/-- Leftmost match of the structural pattern, as both `String#match` and
`String#replace` locate it: `(prefix, spaces, ansi, tokenText, suffix)`
with the prefix being everything before the match. -/
def findStructuralGo (pre : List Char) :
    List Char → Option (List Char × List Char × List Char × List Char × List Char)
  | [] =>
    match matchStructuralAt [] with
    | some (sp, a, t, suf) => some (pre.reverse, sp, a, t, suf)
    | none => none
  | c :: rest =>
    match matchStructuralAt (c :: rest) with
    | some (sp, a, t, suf) => some (pre.reverse, sp, a, t, suf)
    | none => findStructuralGo (c :: pre) rest

def findStructural (l : List Char) :
    Option (List Char × List Char × List Char × List Char × List Char) :=
  findStructuralGo [] l

/-- `chalk.hex(#787C7F)` applied to the status text: the 24-bit foreground SGR open code for
`rgb(120, 124, 127)` around the text, closed by the default-foreground
code. -/
def sgrOpen : List Char := "\x1b[38;2;120;124;127m".toList

def sgrClose : List Char := "\x1b[39m".toList

def colorWrap (info : List Char) : List Char := sgrOpen ++ info ++ sgrClose

/-- The fields of `TokenLineProcessor` read and written by its
`processOutput`.  `lastTimeInfo` is the cached status string (empty, hence
falsy, until the first `updateTimeInfo` completes). -/
structure TokenLineState where
  lastTimeInfo : List Char
  lastUpdateTime : Int
  currentTokens : Int
  lastProcessedTokens : Int
  isProcessingUpdate : Bool
deriving DecidableEq

namespace TokenLineProcessor

/-- The first phase of `TokenLineProcessor.processOutput`: on a token-count
match whose value differs from `currentTokens`, record it and — at most
once per 500 ms — request an asynchronous `updateTimeInfo` refresh (the
returned `Bool`; the refresh does not change `lastTimeInfo` within this
call). -/
def step1 (s : TokenLineState) (data : List Char) (now : Int) :
    TokenLineState × Bool :=
  match findCount false data with
  | some n =>
    if (n : Int) ≠ s.currentTokens then
      if 500 < now - s.lastUpdateTime then
        ({ s with currentTokens := (n : Int), lastUpdateTime := now }, true)
      else ({ s with currentTokens := (n : Int) }, false)
    else (s, false)
  | none => (s, false)

/-- `TokenLineProcessor.processOutput` (the `src/cli.ts` companion file,
lines 414-500): returns the updated state, the chunk to forward, and
whether a status refresh was requested.  The `isProcessingUpdate` flag is
set and cleared within the same synchronous call, so its net effect is
only the early return it guards. -/
def processOutput (s : TokenLineState) (data : List Char) (now : Int) :
    TokenLineState × List Char × Bool :=
  let s1 := (step1 s data now).1
  let refresh := (step1 s data now).2
  match findCount false data with
  | none => (s1, data, refresh)
  | some n =>
    if s1.lastTimeInfo.isEmpty then (s1, data, refresh)
    else
      let hasNewline := data.contains '\n' || data.contains '\r'
      let isLongEnough := 80 < data.length
      if !hasNewline && !isLongEnough then (s1, data, refresh)
      else if (n : Int) = s1.lastProcessedTokens && now - s1.lastUpdateTime < 500 then
        (s1, data, refresh)
      else
        let s2 := { s1 with lastProcessedTokens := (n : Int) }
        match findStructural data with
        | some (pre, sp, ansi, tok, suf) =>
          if s2.isProcessingUpdate then (s2, data, refresh)
          else
            let ourInfoLength := s2.lastTimeInfo.length
            if ourInfoLength + 2 + 5 < sp.length then
              let remainingSpaces := sp.length - ourInfoLength - 2
              (s2,
                pre ++ ([' ', ' '] ++ colorWrap s2.lastTimeInfo ++
                  List.replicate remainingSpaces ' ' ++ ansi ++ tok) ++ suf,
                refresh)
            else (s2, data, refresh)
        | none => (s2, data, refresh)

end TokenLineProcessor

/-! ## Predicates used to state the claims -/

/-- The conclusion of claim C3, formalised from the spec wording: whenever
the monitor initiates a token increment while processing a chunk, the
increment targets the id of the *currently active* session
(`currentActiveId`: the id a fresh `getActiveSession` lookup would return
at that moment — after a window rollover it differs from the id recorded
when this monitor resolved its own `createSession`). -/
def IncrementTargetsCurrentActive (s : TokenMonitorState) (sessionId : String)
    (data : List Char) (currentActiveId : String) : Prop :=
  ∀ p : String × Int,
    (TokenMonitor.processOutput s sessionId data).2.incrementCall = some p →
    p.1 = currentActiveId

/-- The data-model invariant: at every instant, at most one stored row has
a window containing that instant. -/
def AtMostOneActive (store : List SessionRow) : Prop :=
  ∀ t : Int, store.countP (fun r => activeAt t r) ≤ 1

/-- The runs of C2: any finite sequence of `createSession` calls from an
initial state, with a wall clock that never goes backwards between calls
(each call may use any configured window length and any candidate id). -/
inductive CreateReachable (s0 : TrackerState) (t0 : Int) :
    TrackerState → Int → Prop where
  | refl : CreateReachable s0 t0 s0 t0
  | step {s : TrackerState} {t : Int} (now L : Int) (id : String) :
      CreateReachable s0 t0 s t → t ≤ now →
      CreateReachable s0 t0 ((createSession s now L id).2) now

/-! ## Helper lemmas about the Session Window Manager -/

theorem getActiveSession_store (s : TrackerState) (now : Int) :
    ((getActiveSession s now).2.1).store = s.store := by
  unfold getActiveSession queryAndCacheActive
  cases hac : s.activeCache with
  | none => simp
  | some e =>
    by_cases hexp : now > e.timestamp + e.ttl
    · simp [hexp]
    · cases hv : e.value with
      | none => simp [hexp, hv]
      | some sess =>
        by_cases hend : now < sess.endTime
        · simp [hexp, hv, hend]
        · simp [hexp, hv, hend]

theorem getActiveSession_none_query {s : TrackerState} {now : Int}
    (h : (getActiveSession s now).1 = none) :
    queryActive s.store now = none := by
  unfold getActiveSession queryAndCacheActive at h
  cases hac : s.activeCache with
  | none =>
    rw [hac] at h
    simpa using h
  | some e =>
    rw [hac] at h
    by_cases hexp : now > e.timestamp + e.ttl
    · simp only [if_pos hexp] at h
      simpa using h
    · simp only [if_neg hexp] at h
      cases hv : e.value with
      | none =>
        rw [hv] at h
        simpa using h
      | some sess =>
        rw [hv] at h
        by_cases hend : now < sess.endTime
        · simp [if_pos hend] at h
        · simp only [if_neg hend] at h
          simpa using h

theorem getActiveSession_none_cache {s : TrackerState} {now : Int}
    (h : (getActiveSession s now).1 = none) :
    ((getActiveSession s now).2.1).activeCache = some ⟨none, now, 10000⟩ := by
  have hq : queryActive s.store now = none := getActiveSession_none_query h
  unfold getActiveSession queryAndCacheActive at h ⊢
  cases hac : s.activeCache with
  | none => simp [hq]
  | some e =>
    by_cases hexp : now > e.timestamp + e.ttl
    · simp [hexp, hq]
    · cases hv : e.value with
      | none => simp [hexp, hv, hq]
      | some sess =>
        by_cases hend : now < sess.endTime
        · rw [hac] at h
          simp only [if_neg hexp, hv, if_pos hend] at h
          simp at h
        · simp [hexp, hv, hend, hq]

theorem getActiveSession_cache_hit {s : TrackerState} {now ts ttl : Int} {d : SessionData}
    (hc : s.activeCache = some ⟨some d, ts, ttl⟩) (hexp : ¬ now > ts + ttl)
    (hend : now < d.endTime) :
    getActiveSession s now = (some d, s, false) := by
  unfold getActiveSession
  rw [hc]
  simp [hexp, hend]

theorem getActiveSession_fst_of_cached_null {s : TrackerState} {now ts ttl : Int}
    (hc : s.activeCache = some ⟨none, ts, ttl⟩) (hexp : ¬ now > ts + ttl) :
    (getActiveSession s now).1 = (queryActive s.store now).map rowToSessionData := by
  unfold getActiveSession queryAndCacheActive
  rw [hc]
  simp [hexp]

theorem getActiveSession_snd_of_cached_null {s : TrackerState} {now ts ttl : Int}
    (hc : s.activeCache = some ⟨none, ts, ttl⟩) (hexp : ¬ now > ts + ttl) :
    (getActiveSession s now).2.2 = true := by
  unfold getActiveSession queryAndCacheActive
  rw [hc]
  simp [hexp]

/-- Every successful `createSession` leaves the `active_session` cache entry
seeded with the returned session at the call time, and its id checks
passed. -/
theorem createSession_ok_facts {s0 : TrackerState} {now L : Int} {id : String}
    {d : SessionData} {s1 : TrackerState}
    (h : createSession s0 now L id = (.ok d, s1)) :
    s1.activeCache = some ⟨some d, now, 10000⟩ ∧
    (id.length = 0 || 100 < id.length : Bool) = false ∧
    (id.toList.all validSessionChar) = true := by
  unfold createSession at h
  split at h
  · simp at h
  · split at h
    · simp at h
    · rename_i hv1 hv2
      split at h
      · rename_i active s1x q heq
        have hd : active = d ∧
            ({ s1x with activeCache := some ⟨some active, now, 10000⟩ } : TrackerState) = s1 := by
          simpa [Prod.ext_iff] using h
        refine ⟨?_, by simpa using hv1, by simpa using hv2⟩
        rw [← hd.2, ← hd.1]
      · rename_i s1x q heq
        have hfst : (getActiveSession s0 now).1 = none := by rw [heq]
        have hq : queryActive s0.store now = none := getActiveSession_none_query hfst
        have hcache : s1x.activeCache = some ⟨none, now, 10000⟩ := by
          have hc := getActiveSession_none_cache hfst
          rwa [heq] at hc
        have hstore : s1x.store = s0.store := by
          have hs := getActiveSession_store s0 now
          rwa [heq] at hs
        split at h
        · -- insert-conflict branch: the re-query finds nothing, so `h` is a throw
          rename_i hdup
          have h2fst : (getActiveSession s1x now).1 =
              (queryActive s1x.store now).map rowToSessionData :=
            getActiveSession_fst_of_cached_null hcache (by omega)
          rw [hstore, hq] at h2fst
          split at h
          · rename_i existing s2 q2 heq2
            rw [heq2] at h2fst
            simp at h2fst
          · simp at h
        · -- fresh insert
          have h1 := congrArg Prod.fst h
          have h2 := congrArg Prod.snd h
          simp only at h1 h2
          have hd : (⟨id, now, now + (L - 60000)⟩ : SessionData) = d := by
            simpa using h1
          refine ⟨?_, by simpa using hv1, by simpa using hv2⟩
          rw [← h2, ← hd]

/-! ## C1 — createSession is an idempotent join under immediate succession -/

/-- **C1.** For every valid session id, calling `createSession` twice in
immediate succession (the second call starting at `now2`, within the 10 s
active-session cache TTL of the first call and before the returned window
expires) returns the same `SessionData` — identical `id` and identical
`endTime` — on both calls, and the second call inserts no row: the store
is unchanged.  The second caller joins the already-active session. -/
theorem C1_createSession_idempotent_join (s0 : TrackerState)
    (now now2 L : Int) (id : String) (d : SessionData) (s1 : TrackerState)
    (hok : createSession s0 now L id = (.ok d, s1))
    (hsucc : now2 ≤ now + 10000) (hwindow : now2 < d.endTime) :
    (createSession s1 now2 L id).1 = .ok d ∧
    ((createSession s1 now2 L id).2).store = s1.store := by
  obtain ⟨hcache, hv1, hv2⟩ := createSession_ok_facts hok
  have hhit : getActiveSession s1 now2 = (some d, s1, false) :=
    getActiveSession_cache_hit hcache (by omega) hwindow
  unfold createSession
  rw [if_neg (by simp_all), if_neg (by simp_all), hhit]
  exact ⟨rfl, rfl⟩

/-- Witness for C1 at a concrete input: an empty store, id `a`, a 2-minute
configured window, first call at `t = 0`, second at `t = 5`. -/
theorem C1_witness :
    createSession ⟨[], none, none, none⟩ 0 120000 "a" =
      (.ok ⟨"a", 0, 60000⟩, ⟨[⟨"a", 0, 60000, some 0⟩],
        some ⟨some ⟨"a", 0, 60000⟩, 0, 10000⟩, none, none⟩) ∧
    (5 : Int) ≤ 0 + 10000 ∧ (5 : Int) < 60000 ∧
    (createSession ⟨[⟨"a", 0, 60000, some 0⟩],
        some ⟨some ⟨"a", 0, 60000⟩, 0, 10000⟩, none, none⟩ 5 120000 "a").1 =
      .ok ⟨"a", 0, 60000⟩ ∧
    ((createSession ⟨[⟨"a", 0, 60000, some 0⟩],
        some ⟨some ⟨"a", 0, 60000⟩, 0, 10000⟩, none, none⟩ 5 120000 "a").2).store =
      [⟨"a", 0, 60000, some 0⟩] := by
  refine ⟨by rfl, by decide, by decide, ?_⟩
  have h := C1_createSession_idempotent_join ⟨[], none, none, none⟩ 0 5 120000 "a"
    ⟨"a", 0, 60000⟩
    ⟨[⟨"a", 0, 60000, some 0⟩], some ⟨some ⟨"a", 0, 60000⟩, 0, 10000⟩, none, none⟩
    (by rfl) (by decide) (by decide)
  exact h

/-! ## C2 — at most one active session -/

theorem pickLatest_cons_isSome (a : SessionRow) (as : List SessionRow) :
    (pickLatest (a :: as)).isSome := by
  suffices h : ∀ (l : List SessionRow) (b : SessionRow),
      (l.foldl (fun acc r => match acc with
        | none => some r
        | some b => if b.start_time < r.start_time then some r else some b)
        (some b)).isSome by
    simpa [pickLatest] using h as a
  intro l
  induction l with
  | nil => intro b; rfl
  | cons r rs ih =>
    intro b
    simp only [List.foldl]
    by_cases hlt : b.start_time < r.start_time
    · rw [if_pos hlt]; exact ih r
    · rw [if_neg hlt]; exact ih b

/-- If the active-window query finds nothing, no stored row is active. -/
theorem queryActive_none_all {store : List SessionRow} {now : Int}
    (h : queryActive store now = none) :
    ∀ r ∈ store, activeAt now r = false := by
  intro r hr
  by_contra hne
  have hact : activeAt now r = true := by simpa using hne
  have hmem : r ∈ store.filter (activeAt now) := List.mem_filter.mpr ⟨hr, hact⟩
  unfold queryActive at h
  cases hf : store.filter (activeAt now) with
  | nil => rw [hf] at hmem; simp at hmem
  | cons a as =>
    rw [hf] at h
    have := pickLatest_cons_isSome a as
    rw [h] at this
    simp at this

/-- `createSession` either leaves the store untouched or appends one fresh
row, and in the latter case the store had no row active at the call time. -/
theorem createSession_store_cases (s : TrackerState) (now L : Int) (id : String) :
    ((createSession s now L id).2).store = s.store ∨
    (((createSession s now L id).2).store =
        s.store ++ [⟨id, now, now + (L - 60000), some 0⟩] ∧
      queryActive s.store now = none) := by
  unfold createSession
  split
  · exact Or.inl rfl
  · split
    · exact Or.inl rfl
    · split
      · rename_i active s1 q heq
        left
        have hs := getActiveSession_store s now
        rw [heq] at hs
        simpa using hs
      · rename_i s1 q heq
        have hs : s1.store = s.store := by
          have := getActiveSession_store s now
          rwa [heq] at this
        have hfst : (getActiveSession s now).1 = none := by rw [heq]
        have hq : queryActive s.store now = none := getActiveSession_none_query hfst
        split
        · rename_i hdup
          split
          · rename_i existing s2 q2 heq2
            left
            have h2 := getActiveSession_store s1 now
            rw [heq2] at h2
            simpa [hs] using h2
          · rename_i s2 q2 heq2
            left
            have h2 := getActiveSession_store s1 now
            rw [heq2] at h2
            simpa [hs] using h2
        · right
          exact ⟨by simp [hs], hq⟩

/-- One `createSession` call preserves the invariant; rows keep start times
bounded by the (non-decreasing) wall clock. -/
theorem createSession_preserves {s : TrackerState} {t now L : Int} {id : String}
    (hinv : AtMostOneActive s.store)
    (hstart : ∀ r ∈ s.store, r.start_time ≤ t)
    (hle : t ≤ now) :
    AtMostOneActive ((createSession s now L id).2).store ∧
    ∀ r ∈ ((createSession s now L id).2).store, r.start_time ≤ now := by
  rcases createSession_store_cases s now L id with heq | ⟨heq, hq⟩
  · rw [heq]
    exact ⟨hinv, fun r hr => le_trans (hstart r hr) hle⟩
  · rw [heq]
    have hnone := queryActive_none_all hq
    constructor
    · intro u
      rw [List.countP_append]
      by_cases hu : now ≤ u
      · have hz : s.store.countP (fun r => activeAt u r) = 0 := by
          rw [List.countP_eq_zero]
          intro r hr
          have h1 := hnone r hr
          have h2 := hstart r hr
          simp only [activeAt, Bool.and_eq_true, decide_eq_true_eq, not_and, not_lt]
          simp only [activeAt, Bool.and_eq_false_iff, decide_eq_false_iff_not, not_le,
            not_lt] at h1
          intro h3
          rcases h1 with h1 | h1 <;> omega
        rw [hz]
        have : ([(⟨id, now, now + (L - 60000), some 0⟩ : SessionRow)]).countP
            (fun r => activeAt u r) ≤ 1 := by
          have hle1 : ([(⟨id, now, now + (L - 60000), some 0⟩ : SessionRow)]).countP
              (fun r => activeAt u r) ≤
              ([(⟨id, now, now + (L - 60000), some 0⟩ : SessionRow)] : List SessionRow).length :=
            List.countP_le_length _
          simpa using hle1
        omega
      · have hz : ([(⟨id, now, now + (L - 60000), some 0⟩ : SessionRow)]).countP
            (fun r => activeAt u r) = 0 := by
          rw [List.countP_eq_zero]
          intro r hr
          simp only [List.mem_singleton] at hr
          subst hr
          simp only [activeAt, Bool.and_eq_true, decide_eq_true_eq, not_and, not_lt]
          intro h3
          omega
        rw [hz]
        have := hinv u
        omega
    · intro r hr
      rcases List.mem_append.mp hr with h | h
      · exact le_trans (hstart r h) hle
      · simp only [List.mem_singleton] at h
        subst h
        simp

/-- **C2.** After any sequence of `createSession` calls in which the wall
clock only advances and no other writer touches the store, at most one
stored session window contains any given instant — provided the initial
store already satisfied the invariant and held no future-dated rows. -/
theorem C2_at_most_one_active (s0 : TrackerState) (t0 : Int)
    (s : TrackerState) (t : Int)
    (hinv : AtMostOneActive s0.store)
    (hstart : ∀ r ∈ s0.store, r.start_time ≤ t0)
    (h : CreateReachable s0 t0 s t) :
    AtMostOneActive s.store := by
  suffices H : AtMostOneActive s.store ∧ ∀ r ∈ s.store, r.start_time ≤ t from H.1
  induction h with
  | refl => exact ⟨hinv, hstart⟩
  | step now L id hreach hle ih => exact createSession_preserves ih.1 ih.2 hle

/-- Witness for C2 at a concrete run: two `createSession` calls (`a` at
`t = 0`, `b` at `t = 100`) from an empty store. -/
theorem C2_witness :
    AtMostOneActive
      ((createSession ((createSession ⟨[], none, none, none⟩ 0 120000 "a").2)
        100 120000 "b").2).store := by
  have h := C2_at_most_one_active ⟨[], none, none, none⟩ 0 _ _
    (by intro t; simp)
    (by intro r hr; simp at hr)
    (CreateReachable.step 100 120000 "b"
      (CreateReachable.step 0 120000 "a" CreateReachable.refl (by decide))
      (by decide))
  exact h

/-! ## C4 — the cached "no active session" result does not absorb bursts -/

/-- **C4 counterexample.**  With an empty store and cold cache at `t = 0`,
`getActiveSession` queries the store, finds no active session, and caches
the `null` result.  A second call at `t = 5000` — well inside the 10 s TTL
— returns `null` but performs **another** store query (the ghost flag of
the second call is `true`), because the cached `null` is falsy, is deleted,
and falls through to the store.  This falsifies the claim that the second
call returns `null` without performing another store query. -/
theorem C4_counterexample :
    (getActiveSession ⟨[], none, none, none⟩ 0).1 = none ∧
    (getActiveSession ⟨[], none, none, none⟩ 0).2.2 = true ∧
    ((getActiveSession ⟨[], none, none, none⟩ 0).2.1).activeCache =
      some ⟨none, 0, 10000⟩ ∧
    ¬ ((getActiveSession ((getActiveSession ⟨[], none, none, none⟩ 0).2.1) 5000).1 = none ∧
       (getActiveSession ((getActiveSession ⟨[], none, none, none⟩ 0).2.1) 5000).2.2 = false) := by
  refine ⟨by rfl, by rfl, by rfl, ?_⟩
  intro hcl
  have : (getActiveSession ((getActiveSession ⟨[], none, none, none⟩ 0).2.1) 5000).2.2 = true := by rfl
  rw [hcl.2] at this
  simp at this

/-- **C4 (amended).**  When a `getActiveSession` run queries the store and
finds no active session, the `null` result *is* cached — but a second call
within the 10 s TTL does **not** serve it: the cached `null` entry is
deleted and the store is queried again (still returning `null`, since no
writer has added a session and no stored window can newly contain the
later instant). -/
theorem C4_amended_null_recache (s : TrackerState) (now now2 : Int)
    (hstart : ∀ r ∈ s.store, r.start_time ≤ now)
    (hnone : (getActiveSession s now).1 = none)
    (_hq : (getActiveSession s now).2.2 = true)
    (h1 : now ≤ now2) (h2 : now2 ≤ now + 10000) :
    ((getActiveSession s now).2.1).activeCache = some ⟨none, now, 10000⟩ ∧
    (getActiveSession ((getActiveSession s now).2.1) now2).1 = none ∧
    (getActiveSession ((getActiveSession s now).2.1) now2).2.2 = true := by
  have hcache := getActiveSession_none_cache hnone
  have hstore := getActiveSession_store s now
  have hquery := getActiveSession_none_query hnone
  refine ⟨hcache, ?_, ?_⟩
  · have hq2 : queryActive ((getActiveSession s now).2.1).store now2 = none := by
      rw [hstore]
      unfold queryActive
      have hfilter : s.store.filter (activeAt now2) = [] := by
        rw [List.filter_eq_nil_iff]
        intro r hr
        have hfalse := queryActive_none_all hquery r hr
        have hle := hstart r hr
        simp only [activeAt, Bool.and_eq_false_iff, decide_eq_false_iff_not, not_le,
          not_lt] at hfalse
        simp only [activeAt, Bool.and_eq_true, decide_eq_true_eq, not_and, not_lt]
        intro h3
        rcases hfalse with hf | hf <;> omega
      rw [hfilter]
      rfl
    have hfst := getActiveSession_fst_of_cached_null hcache
      (show ¬ now2 > now + 10000 from by omega)
    rw [hfst, hq2]
    rfl
  · exact getActiveSession_snd_of_cached_null hcache
      (show ¬ now2 > now + 10000 from by omega)

/-- Witness for the amended C4 at the concrete input of the counterexample. -/
theorem C4_amended_witness :
    ((getActiveSession ⟨[], none, none, none⟩ 0).2.1).activeCache =
      some ⟨none, 0, 10000⟩ ∧
    (getActiveSession ((getActiveSession ⟨[], none, none, none⟩ 0).2.1) 5000).1 = none ∧
    (getActiveSession ((getActiveSession ⟨[], none, none, none⟩ 0).2.1) 5000).2.2 = true := by
  have h := C4_amended_null_recache ⟨[], none, none, none⟩ 0 5000
    (by intro r hr; simp at hr) (by rfl) (by rfl) (by decide) (by decide)
  exact h

/-! ## C7 — billing-cycle window: range is validated, integrality is not -/

/-- **C7 counterexample.**  The claim says every `renewalDay` that is not an
integer in `[1, 31]` is rejected with a `ValidationError` before any store
access.  The validation in the code only checks the range
(`renewalDay < 1 || renewalDay > 31`): the non-integral day `31/2 = 15.5`
(denominator 2) passes validation and the call succeeds. -/
theorem C7_counterexample :
    (mkRat 31 2).den ≠ 1 ∧
    (1 : ℚ) ≤ mkRat 31 2 ∧ mkRat 31 2 ≤ 31 ∧
    getBillingCycleSessionCount (fun _ => 0) 2025 9 10 [] (mkRat 31 2) = .ok 0 := by
  exact ⟨by decide, by decide, by decide, by rfl⟩

/-- **C7 (amended).**  `getBillingCycleSessionCount(renewalDay)` rejects with
a `ValidationError`, before any store access, every `renewalDay` outside the
real interval `[1, 31]` (integrality is not checked); for every `renewalDay`
in range, the billing window starts at `renewalDay` of the current month when
the current day-of-month is at least `renewalDay`, and at `renewalDay` of
the previous month otherwise, and the result counts exactly the stored
sessions with `start_time` at least the window-start timestamp. -/
theorem C7_billing_cycle_window (toTime : DateParts → Int) (y m d : Int)
    (store : List SessionRow) (r : ℚ) :
    (r < 1 ∨ 31 < r →
      getBillingCycleSessionCount toTime y m d store r =
        .error (.validationError "Invalid renewal day")) ∧
    (1 ≤ r → r ≤ 31 →
      (r ≤ (d : ℚ) →
        getBillingCycleSessionCount toTime y m d store r =
          .ok ((store.filter fun row => toTime ⟨y, m, r⟩ ≤ row.start_time).length)) ∧
      ((d : ℚ) < r →
        getBillingCycleSessionCount toTime y m d store r =
          .ok ((store.filter fun row => toTime ⟨y, m - 1, r⟩ ≤ row.start_time).length))) := by
  unfold getBillingCycleSessionCount
  constructor
  · intro h
    rw [if_pos (by simpa [Bool.or_eq_true, decide_eq_true_eq] using h)]
  · intro h1 h2
    have hcond : ¬ ((r < 1 || 31 < r : Bool) = true) := by
      simp only [Bool.or_eq_true, decide_eq_true_eq, not_or, not_lt]
      exact ⟨h1, h2⟩
    rw [if_neg hcond]
    constructor
    · intro hge
      simp only [if_pos hge]
    · intro hlt
      simp only [if_neg (not_le.mpr hlt)]

/-- Witness for the amended C7: renewal day 15 against a one-row store, on
day-of-month 10 (previous-month window) and day-of-month 20 (current-month
window), plus the rejection of the out-of-range day 32. -/
theorem C7_witness :
    getBillingCycleSessionCount (fun _ => 0) 2025 9 10 [⟨"a", 5, 10, none⟩] 15 =
      .ok 1 ∧
    getBillingCycleSessionCount (fun _ => 0) 2025 9 20 [⟨"a", 5, 10, none⟩] 15 =
      .ok 1 ∧
    getBillingCycleSessionCount (fun _ => 0) 2025 9 20 [] 32 =
      .error (.validationError "Invalid renewal day") := by
  refine ⟨?_, ?_, ?_⟩
  · have h := ((C7_billing_cycle_window (fun _ => 0) 2025 9 10 [⟨"a", 5, 10, none⟩] 15).2
      (by decide) (by decide)).2 (by decide)
    exact h.trans (by rfl)
  · have h := ((C7_billing_cycle_window (fun _ => 0) 2025 9 20 [⟨"a", 5, 10, none⟩] 15).2
      (by decide) (by decide)).1 (by decide)
    exact h.trans (by rfl)
  · exact (C7_billing_cycle_window (fun _ => 0) 2025 9 20 [] 32).1 (Or.inr (by decide))

/-! ## C9 — token-increment accumulation -/

theorem applyIncrements_nil (store : List SessionRow) (id : String) :
    applyIncrements store id [] = .ok store := rfl

theorem applyIncrements_cons (store : List SessionRow) (id : String)
    (d : Int) (t : List Int) :
    applyIncrements store id (d :: t) =
      incrementSessionTokens store id d >>= fun s => applyIncrements s id t := rfl

theorem except_ok_bind {e α β : Type} (a : α) (f : α → Except e β) :
    (Except.ok a : Except e α) >>= f = f a := rfl

theorem except_error_bind {e α β : Type} (err : e) (f : α → Except e β) :
    (Except.error err : Except e α) >>= f = .error err := rfl

theorem incrementSessionTokens_ok (store : List SessionRow) (id : String) (d : Int)
    (hv1 : (id.length = 0 || 100 < id.length : Bool) = false)
    (hv2 : (id.toList.all validSessionChar) = true)
    (h0 : 0 ≤ d) (hm : d ≤ maxSafeInteger) :
    incrementSessionTokens store id d =
      .ok (store.map fun r =>
        if r.id = id then
          { r with total_tokens := some (r.total_tokens.getD 0 + d) }
        else r) := by
  have c2 : (!(id.toList.all validSessionChar)) = false := by rw [hv2]; rfl
  have c3 : (d < 0 || maxSafeInteger < d : Bool) = false := by
    simp only [Bool.or_eq_false_iff, decide_eq_false_iff_not, not_lt]
    exact ⟨h0, hm⟩
  unfold incrementSessionTokens
  rw [if_neg (by simp only [hv1]; simp), if_neg (by simp only [c2]; simp),
    if_neg (by simp only [c3]; simp)]

theorem incrementSessionTokens_invalid (store : List SessionRow) (id : String)
    (d : Int) (hv : (id.length = 0 || 100 < id.length : Bool) = true ∨
      (id.toList.all validSessionChar) = false) :
    incrementSessionTokens store id d =
      (if (id.length = 0 || 100 < id.length : Bool) = true then
        .error (.genericError "Invalid session ID")
      else .error (.genericError "Session ID contains invalid characters")) := by
  unfold incrementSessionTokens
  rcases hv with hv | hv
  · rw [if_pos hv, if_pos hv]
  · by_cases hv1 : (id.length = 0 || 100 < id.length : Bool) = true
    · rw [if_pos hv1, if_pos hv1]
    · rw [if_neg hv1, if_neg hv1, if_pos (by rw [hv]; rfl)]

theorem incrementMap_compose (store : List SessionRow) (id : String) (d1 d2 : Int) :
    ((store.map fun r =>
        if r.id = id then
          { r with total_tokens := some (r.total_tokens.getD 0 + d1) }
        else r).map fun r =>
        if r.id = id then
          { r with total_tokens := some (r.total_tokens.getD 0 + d2) }
        else r) =
      store.map fun r =>
        if r.id = id then
          { r with total_tokens := some (r.total_tokens.getD 0 + (d1 + d2)) }
        else r := by
  induction store with
  | nil => rfl
  | cons a l ih =>
    simp only [List.map_cons, List.cons.injEq]
    refine ⟨?_, ih⟩
    by_cases ha : a.id = id
    · simp only [ha, if_true, if_pos rfl, Option.getD_some]
      have : a.total_tokens.getD 0 + d1 + d2 = a.total_tokens.getD 0 + (d1 + d2) := by
        omega
      rw [this]
    · simp [ha]

theorem applyIncrements_ok_valid {id : String}
    (hv1 : (id.length = 0 || 100 < id.length : Bool) = false)
    (hv2 : (id.toList.all validSessionChar) = true) :
    ∀ (ds : List Int) (store : List SessionRow), ds ≠ [] →
      (∀ d ∈ ds, 0 ≤ d) → ds.sum ≤ maxSafeInteger →
      applyIncrements store id ds =
        .ok (store.map fun r =>
          if r.id = id then
            { r with total_tokens := some (r.total_tokens.getD 0 + ds.sum) }
          else r) := by
  intro ds
  induction ds with
  | nil => intro store h; exact absurd rfl h
  | cons d t ih =>
    intro store _ hnn hsum
    have hd0 : 0 ≤ d := hnn d (List.mem_cons_self d t)
    have ht0 : 0 ≤ t.sum := List.sum_nonneg (fun x hx => hnn x (List.mem_cons_of_mem d hx))
    have hsumc : (d :: t).sum = d + t.sum := List.sum_cons
    have hdm : d ≤ maxSafeInteger := by omega
    have hstep := incrementSessionTokens_ok store id d hv1 hv2 hd0 hdm
    rw [applyIncrements_cons, hstep, except_ok_bind]
    cases t with
    | nil =>
      rw [applyIncrements_nil]
      simp only [List.sum_cons, List.sum_nil, Int.add_zero]
    | cons d2 t2 =>
      have hne2 : (d2 :: t2) ≠ [] := by simp
      have hnn2 : ∀ x ∈ d2 :: t2, 0 ≤ x := fun x hx => hnn x (List.mem_cons_of_mem d hx)
      have hsum2 : (d2 :: t2).sum ≤ maxSafeInteger := by omega
      rw [ih _ hne2 hnn2 hsum2, incrementMap_compose, hsumc]

/-- **C9 counterexample.**  The claim quantifies over *every* finite multiset
of non-negative deltas.  Each delta is validated against
`Number.MAX_SAFE_INTEGER`, so two increments of `MAX_SAFE_INTEGER` each
succeed (final `total_tokens` is `2 · MAX_SAFE_INTEGER`), while the single
call with their sum is rejected with a `ValidationError` — the two final
results differ, refuting the claim at this input. -/
theorem C9_counterexample :
    applyIncrements [⟨"a", 0, 10, some 0⟩] "a" [maxSafeInteger, maxSafeInteger] =
      .ok [⟨"a", 0, 10, some 18014398509481982⟩] ∧
    incrementSessionTokens [⟨"a", 0, 10, some 0⟩] "a"
        (List.sum [maxSafeInteger, maxSafeInteger]) =
      .error (.validationError "Invalid token count") ∧
    applyIncrements [⟨"a", 0, 10, some 0⟩] "a" [maxSafeInteger, maxSafeInteger] ≠
      incrementSessionTokens [⟨"a", 0, 10, some 0⟩] "a"
        (List.sum [maxSafeInteger, maxSafeInteger]) := by
  refine ⟨by rfl, by rfl, ?_⟩
  intro h
  have h1 : applyIncrements [⟨"a", 0, 10, some 0⟩] "a"
      [maxSafeInteger, maxSafeInteger] =
      .ok [⟨"a", 0, 10, some 18014398509481982⟩] := by rfl
  have h2 : incrementSessionTokens [⟨"a", 0, 10, some 0⟩] "a"
      (List.sum [maxSafeInteger, maxSafeInteger]) =
      .error (.validationError "Invalid token count") := by rfl
  rw [h1, h2] at h
  simp at h

/-- **C9 (amended).**  For every existing session id and every *non-empty*
list of non-negative deltas **whose sum stays within the
`Number.MAX_SAFE_INTEGER` validation bound**, applying
`incrementSessionTokens` once per delta — in any order — produces the same
store as a single call with the summed delta: every row carrying the id
ends at `COALESCE(total_tokens, 0) + Σ dᵢ`, and rows with other ids are
untouched.  (Without the sum bound the claim fails: see the
counterexample.) -/
theorem C9_increment_accumulation (store : List SessionRow) (id : String)
    (ds : List Int) (hne : ds ≠ []) (hnn : ∀ d ∈ ds, 0 ≤ d)
    (hsum : ds.sum ≤ maxSafeInteger) :
    applyIncrements store id ds = incrementSessionTokens store id ds.sum ∧
    ∀ ds2, ds.Perm ds2 → applyIncrements store id ds2 = applyIncrements store id ds := by
  have main : ∀ (dl : List Int), dl ≠ [] → (∀ d ∈ dl, 0 ≤ d) →
      dl.sum ≤ maxSafeInteger →
      applyIncrements store id dl = incrementSessionTokens store id dl.sum := by
    intro dl hne1 hnn1 hsum1
    by_cases hv1 : (id.length = 0 || 100 < id.length : Bool) = true
    · cases dl with
      | nil => exact absurd rfl hne1
      | cons d t =>
        rw [applyIncrements_cons,
          incrementSessionTokens_invalid store id d (Or.inl hv1),
          if_pos hv1, except_error_bind,
          incrementSessionTokens_invalid store id (d :: t).sum (Or.inl hv1), if_pos hv1]
    · by_cases hv2 : (id.toList.all validSessionChar) = true
      · have h0 : 0 ≤ dl.sum := List.sum_nonneg hnn1
        rw [applyIncrements_ok_valid (by simpa using hv1) hv2 dl store hne1 hnn1 hsum1,
          incrementSessionTokens_ok store id dl.sum (by simpa using hv1) hv2 h0 hsum1]
      · cases dl with
        | nil => exact absurd rfl hne1
        | cons d t =>
          rw [applyIncrements_cons,
            incrementSessionTokens_invalid store id d
              (Or.inr (by simpa using hv2)),
            if_neg hv1, except_error_bind,
            incrementSessionTokens_invalid store id (d :: t).sum
              (Or.inr (by simpa using hv2)), if_neg hv1]
  refine ⟨main ds hne hnn hsum, ?_⟩
  intro ds2 hp
  have hne2 : ds2 ≠ [] := by
    intro h
    rw [h] at hp
    exact hne hp.eq_nil
  have hnn2 : ∀ d ∈ ds2, 0 ≤ d := fun d hd => hnn d (hp.mem_iff.mpr hd)
  have hsum2 : ds2.sum = ds.sum := hp.sum_eq.symm
  rw [main ds2 hne2 hnn2 (by rw [hsum2]; exact hsum), main ds hne hnn hsum, hsum2]

/-- Witness for the amended C9: deltas `[3, 4]` against a one-row store with
`NULL` tokens equal one call with `7`, and `[4, 3]` equals `[3, 4]`. -/
theorem C9_witness :
    applyIncrements [⟨"a", 0, 10, none⟩] "a" [3, 4] =
      incrementSessionTokens [⟨"a", 0, 10, none⟩] "a" (List.sum [3, 4]) ∧
    applyIncrements [⟨"a", 0, 10, none⟩] "a" [4, 3] =
      applyIncrements [⟨"a", 0, 10, none⟩] "a" [3, 4] := by
  have h := C9_increment_accumulation [⟨"a", 0, 10, none⟩] "a" [3, 4]
    (by decide) (by decide) (by decide)
  exact ⟨h.1, h.2 [4, 3] (by decide)⟩

/-! ## C10 — a stored `undefined` is indistinguishable from a miss;
a stored `null` is a first-class cached value -/

theorem SimpleCache.get_set_same {α : Type} (c : SimpleCache α) (key : String)
    (v : JsValue α) (ttl now now2 : Int) (h : ¬ now + ttl < now2) :
    SimpleCache.get (SimpleCache.set c key v (some ttl) now) key now2 =
      (v, SimpleCache.set c key v (some ttl) now) := by
  unfold SimpleCache.get SimpleCache.set
  simp only [List.find?, decide_True, Option.getD_some]
  rw [if_neg h]

/-- **C10.**  The TTL cache cannot represent a stored `undefined`: after
`set(k, undefined, ttl)`, `get(k)` returns `undefined` and `has(k)` is
`false` even before expiry, and `getOrCompute(k, fn, ttl)` invokes `fn` —
including after a compute that resolved to `undefined` stored `undefined`
again (so such a compute result is never served from cache).  A stored
`null`, in contrast, is returned by `get`, makes `has` true, and is served
by `getOrCompute` without invoking `fn`. -/
theorem C10_cache_undefined_vs_null {α : Type} (c : SimpleCache α) (key : String)
    (ttl now now2 : Int) (fn : Unit → JsValue α)
    (hvalid : now2 ≤ now + ttl) (httl : 0 ≤ ttl) :
    (SimpleCache.get (SimpleCache.set c key .undefined (some ttl) now) key now2).1 =
      .undefined ∧
    (SimpleCache.has (SimpleCache.set c key .undefined (some ttl) now) key now2).1 =
      false ∧
    (SimpleCache.getOrCompute (SimpleCache.set c key .undefined (some ttl) now)
      key fn (some ttl) now2).2.2 = true ∧
    (SimpleCache.getOrCompute (SimpleCache.set c key .undefined (some ttl) now)
      key fn (some ttl) now2).1 = fn () ∧
    (SimpleCache.getOrCompute
      ((SimpleCache.getOrCompute (SimpleCache.set c key .undefined (some ttl) now)
        key (fun _ => .undefined) (some ttl) now2).2.1)
      key fn (some ttl) now2).2.2 = true ∧
    (SimpleCache.get (SimpleCache.set c key .null (some ttl) now) key now2).1 =
      .null ∧
    (SimpleCache.has (SimpleCache.set c key .null (some ttl) now) key now2).1 =
      true ∧
    (SimpleCache.getOrCompute (SimpleCache.set c key .null (some ttl) now)
      key fn (some ttl) now2).1 = .null ∧
    (SimpleCache.getOrCompute (SimpleCache.set c key .null (some ttl) now)
      key fn (some ttl) now2).2.2 = false := by
  have hno : ¬ now + ttl < now2 := by omega
  have hno2 : ¬ now2 + ttl < now2 := by omega
  have hu := SimpleCache.get_set_same c key (.undefined) ttl now now2 hno
  have hn := SimpleCache.get_set_same c key (.null) ttl now now2 hno
  refine ⟨?_, ?_, ?_, ?_, ?_, ?_, ?_, ?_, ?_⟩
  · rw [hu]
  · unfold SimpleCache.has
    rw [hu]
    rfl
  · unfold SimpleCache.getOrCompute
    rw [hu]
    rfl
  · unfold SimpleCache.getOrCompute
    rw [hu]
    rfl
  · have hstep : (SimpleCache.getOrCompute
        (SimpleCache.set c key .undefined (some ttl) now)
        key (fun _ => .undefined) (some ttl) now2).2.1 =
        SimpleCache.set (SimpleCache.set c key .undefined (some ttl) now)
          key .undefined (some ttl) now2 := by
      unfold SimpleCache.getOrCompute
      rw [hu]
      rfl
    rw [hstep]
    have hu2 := SimpleCache.get_set_same
      (SimpleCache.set c key .undefined (some ttl) now) key (.undefined) ttl now2 now2 hno2
    unfold SimpleCache.getOrCompute
    rw [hu2]
    rfl
  · rw [hn]
  · unfold SimpleCache.has
    rw [hn]
    rfl
  · unfold SimpleCache.getOrCompute
    rw [hn]
    rfl
  · unfold SimpleCache.getOrCompute
    rw [hn]
    rfl

/-- Witness for C10 at a concrete cache: empty cache, key `k`, TTL 10 s,
write at `t = 0`, reads at `t = 5000`, compute returning `7`. -/
theorem C10_witness :
    (SimpleCache.get (SimpleCache.set (⟨[], 60000⟩ : SimpleCache Nat)
      "k" .undefined (some 10000) 0) "k" 5000).1 = .undefined ∧
    (SimpleCache.has (SimpleCache.set (⟨[], 60000⟩ : SimpleCache Nat)
      "k" .undefined (some 10000) 0) "k" 5000).1 = false ∧
    (SimpleCache.getOrCompute (SimpleCache.set (⟨[], 60000⟩ : SimpleCache Nat)
      "k" .undefined (some 10000) 0) "k" (fun _ => .value 7) (some 10000) 5000).2.2 =
      true ∧
    (SimpleCache.get (SimpleCache.set (⟨[], 60000⟩ : SimpleCache Nat)
      "k" .null (some 10000) 0) "k" 5000).1 = .null ∧
    (SimpleCache.getOrCompute (SimpleCache.set (⟨[], 60000⟩ : SimpleCache Nat)
      "k" .null (some 10000) 0) "k" (fun _ => .value 7) (some 10000) 5000).2.2 =
      false := by
  have h := C10_cache_undefined_vs_null (⟨[], 60000⟩ : SimpleCache Nat) "k"
    10000 0 5000 (fun _ => .value 7) (by decide) (by decide)
  exact ⟨h.1, h.2.1, h.2.2.1, h.2.2.2.2.2.1, h.2.2.2.2.2.2.2.2⟩

/-! ## Helper lemmas about the Token Usage Monitor -/

theorem startPhase_started (s : TokenMonitorState) (sessionId : String) (c : Int)
    (h : s.sessionStarted = true) :
    TokenMonitor.startPhase s sessionId c = (s, none) := by
  unfold TokenMonitor.startPhase
  rw [h]
  rfl

theorem startPhase_first_baseline (s : TokenMonitorState) (sessionId : String)
    (c : Int) (h : s.sessionStarted = false) :
    ((TokenMonitor.startPhase s sessionId c).1).instanceStartTokenCount =
      (if s.lastTokenCount = 0 ∧ 2000 < c then c else s.lastTokenCount) := by
  unfold TokenMonitor.startPhase
  rw [h]
  by_cases hres : s.lastTokenCount = 0 ∧ 2000 < c
  · have hb : (s.lastTokenCount = 0 && 2000 < c : Bool) = true := by
      simp [hres.1, hres.2]
    simp only [Bool.not_false, if_true, hb, if_pos hres]
    split <;> rfl
  · have hb : (s.lastTokenCount = 0 && 2000 < c : Bool) = false := by
      rcases not_and_or.mp hres with h1 | h1 <;> simp [h1]
    simp only [Bool.not_false, if_true, hb, if_neg hres, Bool.false_eq_true, if_false]
    split <;> rfl

theorem updatePhase_preserves (s : TokenMonitorState) (c : Int) :
    ((TokenMonitor.updatePhase s c).1).instanceStartTokenCount =
      s.instanceStartTokenCount ∧
    ((TokenMonitor.updatePhase s c).1).sessionStarted = s.sessionStarted ∧
    ((TokenMonitor.updatePhase s c).1).actualSessionId = s.actualSessionId ∧
    ((TokenMonitor.updatePhase s c).1).hasSessionPromise = s.hasSessionPromise := by
  unfold TokenMonitor.updatePhase
  split
  · dsimp only
    by_cases hd : 0 < c - s.instanceStartTokenCount - s.lastReportedTokens
    · rw [if_pos hd]
      exact ⟨rfl, rfl, rfl, rfl⟩
    · rw [if_neg hd]
      exact ⟨rfl, rfl, rfl, rfl⟩
  · exact ⟨rfl, rfl, rfl, rfl⟩

theorem processOutput_incr (s : TokenMonitorState) (sessionId : String)
    (data : List Char) (n : Nat)
    (hm : findCount true data = some n) (hinc : s.lastTokenCount < (n : Int)) :
    TokenMonitor.processOutput s sessionId data =
      ({ (TokenMonitor.updatePhase (TokenMonitor.startPhase s sessionId (n : Int)).1
            (n : Int)).1 with lastTokenCount := (n : Int) },
        ⟨(TokenMonitor.startPhase s sessionId (n : Int)).2,
          (TokenMonitor.updatePhase (TokenMonitor.startPhase s sessionId (n : Int)).1
            (n : Int)).2⟩) := by
  unfold TokenMonitor.processOutput
  simp only [hm]
  rw [if_pos hinc]

/-! ## C5 — resume-jump baseline heuristic -/

/-- **C5.**  On the first observed token-count increase of an invocation
(`sessionStarted` still false, parsed count strictly above the last
observed count): when the prior observed count is exactly `0` and the new
count is strictly greater than `2000`, the instance baseline is set to the
new count, so the instance contribution `newCount − baseline` is `0`;
otherwise the baseline is set to the prior observed count, so the
contribution is `newCount − priorCount` (e.g. `0 → 5000` contributes `0`,
`0 → 1500` contributes `1500`). -/
theorem C5_resume_baseline (s : TokenMonitorState) (sessionId : String)
    (data : List Char) (n : Nat)
    (hstart : s.sessionStarted = false)
    (hm : findCount true data = some n)
    (hinc : s.lastTokenCount < (n : Int)) :
    ((TokenMonitor.processOutput s sessionId data).1).instanceStartTokenCount =
      (if s.lastTokenCount = 0 ∧ 2000 < (n : Int) then (n : Int)
       else s.lastTokenCount) ∧
    (n : Int) -
        ((TokenMonitor.processOutput s sessionId data).1).instanceStartTokenCount =
      (if s.lastTokenCount = 0 ∧ 2000 < (n : Int) then 0
       else (n : Int) - s.lastTokenCount) := by
  have hpo := processOutput_incr s sessionId data n hm hinc
  have hbase : ((TokenMonitor.processOutput s sessionId data).1).instanceStartTokenCount =
      (if s.lastTokenCount = 0 ∧ 2000 < (n : Int) then (n : Int)
       else s.lastTokenCount) := by
    rw [hpo]
    show ((TokenMonitor.updatePhase (TokenMonitor.startPhase s sessionId (n : Int)).1
      (n : Int)).1).instanceStartTokenCount = _
    rw [(updatePhase_preserves _ _).1]
    exact startPhase_first_baseline s sessionId (n : Int) hstart
  refine ⟨hbase, ?_⟩
  rw [hbase]
  by_cases hres : s.lastTokenCount = 0 ∧ 2000 < (n : Int)
  · rw [if_pos hres, if_pos hres]
    omega
  · rw [if_neg hres, if_neg hres]

/-- Witness for C5: the spec examples.  A fresh monitor observing `0 → 5000`
sets the baseline to 5000 (contribution 0); a fresh monitor observing
`0 → 1500` keeps baseline 0 (contribution 1500). -/
theorem C5_witness :
    ((TokenMonitor.processOutput ⟨0, false, none, 0, 0, false, false⟩ "req-1"
      ("5000 tokens".toList)).1).instanceStartTokenCount = 5000 ∧
    ((TokenMonitor.processOutput ⟨0, false, none, 0, 0, false, false⟩ "req-1"
      ("1500 tokens".toList)).1).instanceStartTokenCount = 0 ∧
    (5000 : Int) - ((TokenMonitor.processOutput ⟨0, false, none, 0, 0, false, false⟩
      "req-1" ("5000 tokens".toList)).1).instanceStartTokenCount = 0 ∧
    (1500 : Int) - ((TokenMonitor.processOutput ⟨0, false, none, 0, 0, false, false⟩
      "req-1" ("1500 tokens".toList)).1).instanceStartTokenCount = 1500 := by
  have h1 := C5_resume_baseline ⟨0, false, none, 0, 0, false, false⟩ "req-1"
    ("5000 tokens".toList) 5000 (by rfl) (by rfl) (by decide)
  have h2 := C5_resume_baseline ⟨0, false, none, 0, 0, false, false⟩ "req-1"
    ("1500 tokens".toList) 1500 (by rfl) (by rfl) (by decide)
  refine ⟨?_, ?_, ?_, ?_⟩
  · rw [h1.1]; decide
  · rw [h2.1]; decide
  · rw [h1.1]; decide
  · rw [h2.1]; decide

/-! ## C6 — frame property of `processOutput` -/

/-- **C6.**  A chunk with no `<digits> tokens` match, or whose parsed count
is not strictly greater than `lastTokenCount` (an exact repeat or a
decrease), leaves every monitor field — `lastTokenCount`, `sessionStarted`,
`actualSessionId`, `instanceStartTokenCount`, `lastReportedTokens`,
`sessionLock`, `hasSessionPromise` — unchanged and initiates no store
operation. -/
theorem C6_monitor_noop (s : TokenMonitorState) (sessionId : String)
    (data : List Char)
    (h : findCount true data = none ∨
      ∃ n, findCount true data = some n ∧ (n : Int) ≤ s.lastTokenCount) :
    TokenMonitor.processOutput s sessionId data = (s, noEffects) := by
  unfold TokenMonitor.processOutput
  rcases h with h | ⟨n, hm, hle⟩
  · rw [h]
  · simp only [hm]
    rw [if_neg (not_lt.mpr hle)]

/-- Witness for C6: a chunk with no token pattern, and a chunk repeating
the already-observed count 100, each leave a mid-session monitor state
unchanged with no effects. -/
theorem C6_witness :
    TokenMonitor.processOutput ⟨100, true, some "session-A", 0, 50, false, true⟩
      "req-1" ("compiling...".toList) =
      (⟨100, true, some "session-A", 0, 50, false, true⟩, noEffects) ∧
    TokenMonitor.processOutput ⟨100, true, some "session-A", 0, 50, false, true⟩
      "req-1" ("100 tokens".toList) =
      (⟨100, true, some "session-A", 0, 50, false, true⟩, noEffects) := by
  constructor
  · exact C6_monitor_noop _ "req-1" _ (Or.inl (by rfl))
  · exact C6_monitor_noop _ "req-1" _ (Or.inr ⟨100, by rfl, by decide⟩)

/-! ## C3 — which session id receives the increment -/

/-- **C3 counterexample.**  A monitor mid-invocation: it recorded
`actualSessionId = "session-A"` when its `createSession` resolved, its
baseline is 0, it has reported 100 tokens, and no update is in flight.
The session window has since rolled over, and the currently active session
(what a fresh `getActiveSession` would return) is `"session-B"`.  On the
next increase (`250 tokens`) the monitor initiates
`incrementSessionTokens("session-A", 150)` — the *recorded* id — without
fetching the active session, so the increment is not attributed to the
new window: `IncrementTargetsCurrentActive` fails for `"session-B"`. -/
theorem C3_counterexample :
    (TokenMonitor.processOutput ⟨100, true, some "session-A", 0, 100, false, true⟩
      "req-1" ("250 tokens".toList)).2.incrementCall = some ("session-A", 150) ∧
    ¬ IncrementTargetsCurrentActive ⟨100, true, some "session-A", 0, 100, false, true⟩
      "req-1" ("250 tokens".toList) "session-B" := by
  constructor
  · rfl
  · intro hcl
    have h := hcl ("session-A", 150) (by rfl)
    simp at h

/-- **C3 (amended).**  On a token-count increase observed after the session
has started, with a recorded `actualSessionId` and no update in flight,
when the delta `(newCount − baseline) − lastReportedTokens` is positive the
monitor initiates `incrementSessionTokens` against the **recorded**
`actualSessionId` — it performs no fresh `getActiveSession` fetch — sets
`lastReportedTokens` optimistically before the store call completes, and
takes the single-flight lock.  (After a window rollover the increment is
therefore attributed to the old recorded session, not the new window.) -/
theorem C3_increment_uses_recorded_id (s : TokenMonitorState)
    (sessionId : String) (data : List Char) (n : Nat) (sid : String)
    (hm : findCount true data = some n)
    (hstarted : s.sessionStarted = true)
    (hsid : s.actualSessionId = some sid)
    (hlock : s.sessionLock = false)
    (hinc : s.lastTokenCount < (n : Int))
    (hdelta : 0 < (n : Int) - s.instanceStartTokenCount - s.lastReportedTokens) :
    (TokenMonitor.processOutput s sessionId data).2.incrementCall =
      some (sid, (n : Int) - s.instanceStartTokenCount - s.lastReportedTokens) ∧
    (TokenMonitor.processOutput s sessionId data).2.createSessionCall = none ∧
    ((TokenMonitor.processOutput s sessionId data).1).lastReportedTokens =
      (n : Int) - s.instanceStartTokenCount ∧
    ((TokenMonitor.processOutput s sessionId data).1).sessionLock = true ∧
    ((TokenMonitor.processOutput s sessionId data).1).lastTokenCount = (n : Int) := by
  have hpo := processOutput_incr s sessionId data n hm hinc
  have hsp := startPhase_started s sessionId (n : Int) hstarted
  rw [hpo, hsp]
  unfold TokenMonitor.updatePhase
  rw [hsid, hlock]
  dsimp only
  rw [if_pos hdelta]
  exact ⟨rfl, rfl, rfl, rfl, rfl⟩

/-- Witness for the amended C3: the counterexample state observing
`250 tokens` initiates `incrementSessionTokens("session-A", 150)`, records
`lastReportedTokens = 250` optimistically and takes the lock. -/
theorem C3_witness :
    (TokenMonitor.processOutput ⟨100, true, some "session-A", 0, 100, false, true⟩
      "req-1" ("250 tokens".toList)).2.incrementCall = some ("session-A", 150) ∧
    (TokenMonitor.processOutput ⟨100, true, some "session-A", 0, 100, false, true⟩
      "req-1" ("250 tokens".toList)).2.createSessionCall = none ∧
    ((TokenMonitor.processOutput ⟨100, true, some "session-A", 0, 100, false, true⟩
      "req-1" ("250 tokens".toList)).1).lastReportedTokens = 250 ∧
    ((TokenMonitor.processOutput ⟨100, true, some "session-A", 0, 100, false, true⟩
      "req-1" ("250 tokens".toList)).1).sessionLock = true := by
  have h := C3_increment_uses_recorded_id
    ⟨100, true, some "session-A", 0, 100, false, true⟩ "req-1"
    ("250 tokens".toList) 250 "session-A"
    (by rfl) (by rfl) (by rfl) (by rfl) (by decide) (by decide)
  exact ⟨by rw [h.1]; rfl, h.2.1, by rw [h.2.2.1]; rfl, h.2.2.2.1⟩

/-! ## Helper lemmas about SGR parsing and the injector -/

theorem takeWhile_append_sat (p : Char → Bool) :
    ∀ (xs : List Char) (y : Char) (ys : List Char),
      (∀ a ∈ xs, p a = true) → p y = false →
      (xs ++ y :: ys).takeWhile p = xs ∧ (xs ++ y :: ys).dropWhile p = y :: ys := by
  intro xs
  induction xs with
  | nil =>
    intro y ys _ hy
    simp [List.takeWhile, List.dropWhile, hy]
  | cons a l ih =>
    intro y ys hall hy
    have ha : p a = true := hall a (List.mem_cons_self a l)
    have hrest := ih y ys (fun b hb => hall b (List.mem_cons_of_mem a hb)) hy
    simp only [List.cons_append, List.takeWhile, List.dropWhile, ha]
    have hsame : l.append (y :: ys) = l ++ y :: ys := rfl
    exact ⟨by rw [hsame, hrest.1], by rw [hsame, hrest.2]⟩

theorem parseSgrUnit_shape {l u r : List Char} (h : parseSgrUnit l = some (u, r)) :
    ∃ ps, u = '\x1b' :: '[' :: (ps ++ ['m']) ∧ (∀ c ∈ ps, isSgrParam c = true) ∧
      l = u ++ r := by
  cases l with
  | nil => simp [parseSgrUnit] at h
  | cons c1 t1 =>
    cases t1 with
    | nil => simp [parseSgrUnit] at h
    | cons c2 rest =>
      simp only [parseSgrUnit] at h
      split at h
      · rename_i hcc
        split at h
        · rename_i tail heq
          simp only [Option.some.injEq, Prod.mk.injEq] at h
          obtain ⟨hu, hr⟩ := h
          simp only [Bool.and_eq_true, decide_eq_true_eq] at hcc
          refine ⟨rest.takeWhile isSgrParam, ?_, ?_, ?_⟩
          · rw [← hu, hcc.1, hcc.2]
          · intro c hc
            exact List.mem_takeWhile_imp hc
          · rw [← hu, ← hr, hcc.1, hcc.2]
            simp only [List.cons_append, List.cons.injEq, true_and]
            rw [List.append_assoc, List.singleton_append, ← heq]
            exact (List.takeWhile_append_dropWhile isSgrParam rest).symm
        · simp at h
      · simp at h

theorem parseSgrUnit_extend {l u r : List Char} (h : parseSgrUnit l = some (u, r)) :
    ∀ x, parseSgrUnit (u ++ x) = some (u, x) := by
  intro x
  obtain ⟨ps, hu, hps, _⟩ := parseSgrUnit_shape h
  have hsplit := takeWhile_append_sat isSgrParam ps 'm' x hps (by rfl)
  subst hu
  show parseSgrUnit ('\x1b' :: '[' :: ((ps ++ ['m']) ++ x)) = _
  have hlist : (ps ++ ['m']) ++ x = ps ++ 'm' :: x := by
    rw [List.append_assoc]
    rfl
  rw [hlist]
  simp only [parseSgrUnit]
  rw [if_pos (by decide), hsplit.2, hsplit.1]
  rfl

theorem parseSgrUnit_none_of_head {c : Char} (hc : c ≠ '\x1b') (t : List Char) :
    parseSgrUnit (c :: t) = none := by
  cases t with
  | nil => rfl
  | cons c2 rest =>
    simp only [parseSgrUnit]
    rw [if_neg (by simp [hc])]

theorem eatAnsiGo_append : ∀ (fuel : Nat) (l : List Char), l.length ≤ fuel →
    (eatAnsiGo fuel l).1 ++ (eatAnsiGo fuel l).2 = l := by
  intro fuel
  induction fuel with
  | zero => intro l _; rfl
  | succ f ih =>
    intro l hl
    cases hp : parseSgrUnit l with
    | none => simp [eatAnsiGo, hp]
    | some ur =>
      obtain ⟨u, r⟩ := ur
      simp only [eatAnsiGo, hp]
      obtain ⟨ps, hu, _, hdecomp⟩ := parseSgrUnit_shape hp
      have hul : u.length = ps.length + 3 := by
        rw [hu]
        simp
      have hll : l.length = u.length + r.length := by
        rw [hdecomp, List.length_append]
      have ihr := ih r (by omega)
      rw [List.append_assoc, ihr]
      exact hdecomp.symm

theorem eatAnsi_append (l : List Char) : (eatAnsi l).1 ++ (eatAnsi l).2 = l :=
  eatAnsiGo_append l.length l (le_refl _)

theorem stripAnsiGo_irrel : ∀ (n : Nat) (l : List Char), l.length ≤ n →
    ∀ f1 f2, l.length ≤ f1 → l.length ≤ f2 → stripAnsiGo f1 l = stripAnsiGo f2 l := by
  intro n
  induction n using Nat.strong_induction_on with
  | _ n ih =>
    intro l hln f1 f2 h1 h2
    cases l with
    | nil => cases f1 <;> cases f2 <;> rfl
    | cons c rest =>
      cases f1 with
      | zero => simp at h1
      | succ g1 =>
        cases f2 with
        | zero => simp at h2
        | succ g2 =>
          simp only [List.length_cons] at hln h1 h2
          cases hp : parseSgrUnit (c :: rest) with
          | none =>
            simp only [stripAnsiGo, hp]
            have hrec := ih rest.length (by omega) rest (le_refl _) g1 g2
              (by omega) (by omega)
            rw [hrec]
          | some ur =>
            obtain ⟨u, r⟩ := ur
            simp only [stripAnsiGo, hp]
            obtain ⟨ps, hu, _, hdecomp⟩ := parseSgrUnit_shape hp
            have hul : u.length = ps.length + 3 := by
              rw [hu]
              simp
            have hll : (c :: rest).length = u.length + r.length := by
              rw [hdecomp, List.length_append]
            simp only [List.length_cons] at hll
            exact ih r.length (by omega) r (le_refl _) g1 g2 (by omega) (by omega)

theorem stripAnsiGo_eq_stripAnsi (f : Nat) (l : List Char) (h : l.length ≤ f) :
    stripAnsiGo f l = stripAnsi l :=
  stripAnsiGo_irrel l.length l (le_refl _) f l.length h (le_refl _)

theorem stripAnsi_unit_append {l0 u r0 : List Char}
    (h : parseSgrUnit l0 = some (u, r0)) :
    ∀ x, stripAnsi (u ++ x) = stripAnsi x := by
  intro x
  have hext := parseSgrUnit_extend h x
  obtain ⟨ps, hu, _, _⟩ := parseSgrUnit_shape h
  subst hu
  have hext2 : parseSgrUnit ('\x1b' :: (('[' :: (ps ++ ['m'])) ++ x)) =
      some ('\x1b' :: '[' :: (ps ++ ['m']), x) := hext
  show stripAnsiGo ('\x1b' :: (('[' :: (ps ++ ['m'])) ++ x)).length
    ('\x1b' :: (('[' :: (ps ++ ['m'])) ++ x)) = stripAnsi x
  simp only [List.length_cons, stripAnsiGo, hext2]
  apply stripAnsiGo_eq_stripAnsi
  simp [List.length_append]
  omega

theorem stripAnsi_esc_free_append :
    ∀ (a b : List Char), (∀ c ∈ a, c ≠ '\x1b') →
      stripAnsi (a ++ b) = a ++ stripAnsi b := by
  intro a
  induction a with
  | nil => intro b _; rfl
  | cons c t ih =>
    intro b hesc
    have hc : c ≠ '\x1b' := hesc c (List.mem_cons_self c t)
    have hnone := parseSgrUnit_none_of_head hc (t ++ b)
    show stripAnsiGo (c :: (t ++ b)).length (c :: (t ++ b)) = c :: (t ++ stripAnsi b)
    simp only [List.length_cons, stripAnsiGo, hnone]
    rw [stripAnsiGo_eq_stripAnsi (t ++ b).length (t ++ b) (le_refl _)]
    rw [ih b (fun d hd => hesc d (List.mem_cons_of_mem c hd))]

theorem eatAnsi_strip : ∀ (l x : List Char),
    stripAnsi ((eatAnsi l).1 ++ x) = stripAnsi x := by
  have main : ∀ (fuel : Nat) (l : List Char), l.length ≤ fuel → ∀ x,
      stripAnsi ((eatAnsiGo fuel l).1 ++ x) = stripAnsi x := by
    intro fuel
    induction fuel with
    | zero => intro l _ x; rfl
    | succ f ih =>
      intro l hl x
      cases hp : parseSgrUnit l with
      | none => simp [eatAnsiGo, hp]
      | some ur =>
        obtain ⟨u, r⟩ := ur
        simp only [eatAnsiGo, hp]
        obtain ⟨ps, hu, _, hdecomp⟩ := parseSgrUnit_shape hp
        have hul : u.length = ps.length + 3 := by
          rw [hu]
          simp
        have hll : l.length = u.length + r.length := by
          rw [hdecomp, List.length_append]
        rw [List.append_assoc, stripAnsi_unit_append hp]
        exact ih r (by omega) x
  exact fun l x => main l.length l (le_refl _) x

theorem matchStructuralAt_some {l sp a t suf : List Char}
    (h : matchStructuralAt l = some (sp, a, t, suf)) :
    l = sp ++ a ++ t ++ suf ∧ stripAnsi a = [] := by
  unfold matchStructuralAt at h
  dsimp only at h
  split at h
  · simp at h
  · split at h
    · simp at h
    · split at h
      · simp at h
      · split at h
        · rename_i htake
          split at h
          · rename_i tl hdrop
            simp only [Option.some.injEq, Prod.mk.injEq] at h
            obtain ⟨hsp, ha, ht, hsuf⟩ := h
            subst hsp; subst ha; subst ht; subst hsuf
            constructor
            · have h1 := (List.takeWhile_append_dropWhile jsWhitespace l).symm
              have h2 := (eatAnsi_append (l.dropWhile jsWhitespace)).symm
              have h3 := (List.takeWhile_append_dropWhile Char.isDigit
                (eatAnsi (l.dropWhile jsWhitespace)).2).symm
              have h4 := (List.takeWhile_append_dropWhile jsWhitespace
                ((eatAnsi (l.dropWhile jsWhitespace)).2.dropWhile Char.isDigit)).symm
              have h5 := (List.take_append_drop 5
                (((eatAnsi (l.dropWhile jsWhitespace)).2.dropWhile
                  Char.isDigit).dropWhile jsWhitespace)).symm
              rw [htake, hdrop] at h5
              conv_lhs => rw [h1, h2, h3, h4, h5]
              simp [List.append_assoc, List.cons_append]
            · have hz := eatAnsi_strip (l.dropWhile jsWhitespace) []
              have h0 : stripAnsi ([] : List Char) = [] := rfl
              rw [List.append_nil, h0] at hz
              exact hz
          · rename_i other hdrop
            simp only [Option.some.injEq, Prod.mk.injEq] at h
            obtain ⟨hsp, ha, ht, hsuf⟩ := h
            subst hsp; subst ha; subst ht; subst hsuf
            constructor
            · have h1 := (List.takeWhile_append_dropWhile jsWhitespace l).symm
              have h2 := (eatAnsi_append (l.dropWhile jsWhitespace)).symm
              have h3 := (List.takeWhile_append_dropWhile Char.isDigit
                (eatAnsi (l.dropWhile jsWhitespace)).2).symm
              have h4 := (List.takeWhile_append_dropWhile jsWhitespace
                ((eatAnsi (l.dropWhile jsWhitespace)).2.dropWhile Char.isDigit)).symm
              have h5 := (List.take_append_drop 5
                (((eatAnsi (l.dropWhile jsWhitespace)).2.dropWhile
                  Char.isDigit).dropWhile jsWhitespace)).symm
              rw [htake] at h5
              conv_lhs => rw [h1, h2, h3, h4, h5]
              simp [List.append_assoc, List.cons_append]
            · have hz := eatAnsi_strip (l.dropWhile jsWhitespace) []
              have h0 : stripAnsi ([] : List Char) = [] := rfl
              rw [List.append_nil, h0] at hz
              exact hz
        · simp at h

theorem findStructural_some {l pre sp a t suf : List Char}
    (h : findStructural l = some (pre, sp, a, t, suf)) :
    l = pre ++ sp ++ a ++ t ++ suf ∧ stripAnsi a = [] := by
  have main : ∀ (l2 acc : List Char),
      findStructuralGo acc l2 = some (pre, sp, a, t, suf) →
      acc.reverse ++ l2 = pre ++ sp ++ a ++ t ++ suf ∧ stripAnsi a = [] := by
    intro l2
    induction l2 with
    | nil =>
      intro acc hg
      have hequ : findStructuralGo acc [] =
          match matchStructuralAt [] with
          | some (sp, a, t, suf) => some (acc.reverse, sp, a, t, suf)
          | none => none := rfl
      rw [hequ] at hg
      have hms : matchStructuralAt [] = none := by decide
      rw [hms] at hg
      simp at hg
    | cons c rest ih =>
      intro acc hg
      have hequ : findStructuralGo acc (c :: rest) =
          match matchStructuralAt (c :: rest) with
          | some (sp, a, t, suf) => some (acc.reverse, sp, a, t, suf)
          | none => findStructuralGo (c :: acc) rest := rfl
      rw [hequ] at hg
      cases hms : matchStructuralAt (c :: rest) with
      | some q =>
        obtain ⟨sp2, a2, t2, suf2⟩ := q
        rw [hms] at hg
        simp only [Option.some.injEq, Prod.mk.injEq] at hg
        obtain ⟨hpre, hs, ha, ht, hf⟩ := hg
        subst hpre; subst hs; subst ha; subst ht; subst hf
        have hm := matchStructuralAt_some hms
        refine ⟨?_, hm.2⟩
        rw [hm.1]
        simp [List.append_assoc]
      | none =>
        rw [hms] at hg
        have hrec := ih (c :: acc) hg
        rw [← hrec.1]
        refine ⟨?_, hrec.2⟩
        rw [List.reverse_cons, List.append_assoc]
        rfl
  have hmain := main l [] h
  simpa using hmain

theorem stripAnsi_injected (info padR ansi : List Char)
    (hinfo : ∀ c ∈ info, c ≠ '\x1b') (hpad : ∀ c ∈ padR, c ≠ '\x1b')
    (hstrip : stripAnsi ansi = []) :
    stripAnsi ([' ', ' '] ++ colorWrap info ++ padR ++ ansi) =
      [' ', ' '] ++ info ++ padR := by
  have hopen : parseSgrUnit sgrOpen = some (sgrOpen, []) := by decide
  have hclose : parseSgrUnit sgrClose = some (sgrClose, []) := by decide
  have hassoc : [' ', ' '] ++ colorWrap info ++ padR ++ ansi =
      [' ', ' '] ++ (sgrOpen ++ (info ++ (sgrClose ++ (padR ++ ansi)))) := by
    simp [colorWrap, List.append_assoc]
  rw [hassoc]
  rw [stripAnsi_esc_free_append [' ', ' '] _ (by decide)]
  rw [stripAnsi_unit_append hopen]
  rw [stripAnsi_esc_free_append info _ hinfo]
  rw [stripAnsi_unit_append hclose]
  rw [stripAnsi_esc_free_append padR _ hpad]
  rw [hstrip]
  simp [List.append_assoc]

theorem step1_preserves (s : TokenLineState) (data : List Char) (now : Int) :
    ((TokenLineProcessor.step1 s data now).1).lastTimeInfo = s.lastTimeInfo ∧
    ((TokenLineProcessor.step1 s data now).1).lastProcessedTokens =
      s.lastProcessedTokens ∧
    ((TokenLineProcessor.step1 s data now).1).isProcessingUpdate =
      s.isProcessingUpdate := by
  unfold TokenLineProcessor.step1
  split
  · split
    · split
      · exact ⟨rfl, rfl, rfl⟩
      · exact ⟨rfl, rfl, rfl⟩
    · exact ⟨rfl, rfl, rfl⟩
  · exact ⟨rfl, rfl, rfl⟩

theorem processOutput_out (s : TokenLineState) (data : List Char) (now : Int)
    (n : Nat)
    (hn : findCount false data = some n)
    (hinfo : s.lastTimeInfo ≠ [])
    (hcomplete : data.contains '\n' = true ∨ data.contains '\r' = true ∨
      80 < data.length)
    (hdedup : (n : Int) ≠ s.lastProcessedTokens)
    (hproc : s.isProcessingUpdate = false) :
    (TokenLineProcessor.processOutput s data now).2.1 =
      match findStructural data with
      | some (pre, sp, ansi, tok, suf) =>
        if s.lastTimeInfo.length + 2 + 5 < sp.length then
          pre ++ ([' ', ' '] ++ colorWrap s.lastTimeInfo ++
            List.replicate (sp.length - s.lastTimeInfo.length - 2) ' ' ++
            ansi ++ tok) ++ suf
        else data
      | none => data := by
  have hp := step1_preserves s data now
  have hie : ((TokenLineProcessor.step1 s data now).1).lastTimeInfo.isEmpty = false := by
    rw [hp.1]
    cases hli : s.lastTimeInfo with
    | nil => exact absurd hli hinfo
    | cons a b => rfl
  have hc2 : (!(data.contains '\n' || data.contains '\r') &&
      !(decide (80 < data.length))) = false := by
    rcases hcomplete with h | h | h
    · simp only [h, Bool.true_or, Bool.not_true, Bool.false_and]
    · simp only [h, Bool.or_true, Bool.not_true, Bool.false_and]
    · have hd : decide (80 < data.length) = true := decide_eq_true h
      simp only [hd, Bool.not_true, Bool.and_false]
  have hc3 : (decide ((n : Int) = ((TokenLineProcessor.step1 s data now).1).lastProcessedTokens) &&
      decide (now - ((TokenLineProcessor.step1 s data now).1).lastUpdateTime < 500)) =
      false := by
    rw [hp.2.1]
    simp [hdedup]
  unfold TokenLineProcessor.processOutput
  simp only [hn, hie, hc2, hc3, Bool.false_eq_true, if_false]
  cases hfs : findStructural data with
  | none => rfl
  | some q =>
    obtain ⟨pre, sp, ansi, tok, suf⟩ := q
    simp only [hfs]
    simp only [hp.1, hp.2.2, hproc, Bool.false_eq_true, if_false]
    split
    · rfl
    · rfl

/-! ## C8 — the status injector preserves the counter column -/

/-- **C8.**  For a complete chunk (newline present or length above 80) that
contains a `<digits> token(s)` match not deduplicated against the previous
injection, processed while no replacement is in progress and with a
non-empty cached status string free of escape characters:

* when the chunk contains the structural pattern — a run of at least 50
  whitespace characters, optional SGR sequences, then the
  digits-plus-`token(s)` text — and the run is wide enough
  (`status length + 2 + 5 < run length`), the returned chunk replaces
  exactly the whitespace run: the input decomposes as
  `pre ++ sp ++ ansi ++ tok ++ suf` and the output is
  `pre ++ (two-space pad ++ coloured status ++ padding ++ ansi ++ tok) ++ suf`,
  so everything from the original `tok` text to the end of the chunk is
  byte-identical and the visible characters inserted before `tok` have
  total length exactly `sp.length` — the counter still begins at its
  original visible column;
* when the pattern is absent, or present but the run is too narrow, the
  returned chunk is byte-for-byte equal to the input. -/
theorem C8_injector_column_preserved (s : TokenLineState) (data : List Char)
    (now : Int) (n : Nat)
    (hn : findCount false data = some n)
    (hinfo : s.lastTimeInfo ≠ [])
    (hesc : ∀ c ∈ s.lastTimeInfo, c ≠ '\x1b')
    (hcomplete : data.contains '\n' = true ∨ data.contains '\r' = true ∨
      80 < data.length)
    (hdedup : (n : Int) ≠ s.lastProcessedTokens)
    (hproc : s.isProcessingUpdate = false) :
    (∀ pre sp ansi tok suf,
      findStructural data = some (pre, sp, ansi, tok, suf) →
      s.lastTimeInfo.length + 2 + 5 < sp.length →
      data = pre ++ sp ++ ansi ++ tok ++ suf ∧
      (TokenLineProcessor.processOutput s data now).2.1 =
        pre ++ ([' ', ' '] ++ colorWrap s.lastTimeInfo ++
          List.replicate (sp.length - s.lastTimeInfo.length - 2) ' ' ++
          ansi ++ tok) ++ suf ∧
      (stripAnsi ([' ', ' '] ++ colorWrap s.lastTimeInfo ++
          List.replicate (sp.length - s.lastTimeInfo.length - 2) ' ' ++
          ansi)).length = sp.length) ∧
    (findStructural data = none →
      (TokenLineProcessor.processOutput s data now).2.1 = data) ∧
    (∀ pre sp ansi tok suf,
      findStructural data = some (pre, sp, ansi, tok, suf) →
      sp.length ≤ s.lastTimeInfo.length + 2 + 5 →
      (TokenLineProcessor.processOutput s data now).2.1 = data) := by
  have hout := processOutput_out s data now n hn hinfo hcomplete hdedup hproc
  refine ⟨?_, ?_, ?_⟩
  · intro pre sp ansi tok suf hfs hwide
    have hdec := findStructural_some hfs
    refine ⟨hdec.1, ?_, ?_⟩
    · rw [hout]
      simp only [hfs]
      rw [if_pos hwide]
    · have hpad : ∀ c ∈ List.replicate (sp.length - s.lastTimeInfo.length - 2) ' ',
          c ≠ '\x1b' := by
        intro c hc
        rw [List.eq_of_mem_replicate hc]
        decide
      rw [stripAnsi_injected s.lastTimeInfo _ ansi hesc hpad hdec.2]
      simp only [List.length_append, List.length_cons, List.length_nil,
        List.length_replicate]
      omega
  · intro hfs
    rw [hout]
    simp only [hfs]
  · intro pre sp ansi tok suf hfs hnarrow
    rw [hout]
    simp only [hfs]
    rw [if_neg (by omega)]

/-- Witness for C8: a 20-character status, a chunk of 60 spaces followed by
`42 tokens` and a newline (the spec example, wide enough: injected with the
counter column preserved), and a chunk with only 10 spaces (structural
pattern absent: returned byte-identical). -/
theorem C8_witness :
    (TokenLineProcessor.processOutput
        ⟨List.replicate 20 'x', 0, 0, 0, false⟩
        (List.replicate 60 ' ' ++ "42 tokens".toList ++ ['\n']) 1000).2.1 =
      [] ++ ([' ', ' '] ++ colorWrap (List.replicate 20 'x') ++
        List.replicate 38 ' ' ++ [] ++ "42 tokens".toList) ++ ['\n'] ∧
    (stripAnsi ([' ', ' '] ++ colorWrap (List.replicate 20 'x') ++
        List.replicate 38 ' ' ++ [])).length = 60 ∧
    (TokenLineProcessor.processOutput
        ⟨List.replicate 20 'x', 0, 0, 0, false⟩
        (List.replicate 10 ' ' ++ "42 tokens".toList ++ ['\n']) 1000).2.1 =
      List.replicate 10 ' ' ++ "42 tokens".toList ++ ['\n'] := by
  have h1 := C8_injector_column_preserved
    ⟨List.replicate 20 'x', 0, 0, 0, false⟩
    (List.replicate 60 ' ' ++ "42 tokens".toList ++ ['\n']) 1000 42
    (by decide) (by decide) (by decide) (Or.inl (by decide)) (by decide) (by rfl)
  have h2 := C8_injector_column_preserved
    ⟨List.replicate 20 'x', 0, 0, 0, false⟩
    (List.replicate 10 ' ' ++ "42 tokens".toList ++ ['\n']) 1000 42
    (by decide) (by decide) (by decide) (Or.inl (by decide)) (by decide) (by rfl)
  have hfs1 : findStructural (List.replicate 60 ' ' ++ "42 tokens".toList ++ ['\n']) =
      some ([], List.replicate 60 ' ', [], "42 tokens".toList, ['\n']) := by decide
  have hfs2 : findStructural (List.replicate 10 ' ' ++ "42 tokens".toList ++ ['\n']) =
      none := by decide
  have ha := h1.1 [] (List.replicate 60 ' ') [] ("42 tokens".toList) ['\n'] hfs1
    (by decide)
  refine ⟨?_, ?_, h2.2.1 hfs2⟩
  · have := ha.2.1
    simpa using this
  · have := ha.2.2
    simpa using this
